import Mathlib

/-!
Verification of the content-extraction-and-summarization pipeline of the
AI-Article-Summarizer repository (src/main.py and src/rnd/gemma_crawl.py).

Python strings are modelled as `List Char`.  External collaborators (the
rich crawler, the plain HTTP client, the LLM endpoint, the HTML parser)
are modelled as oracle parameters; everything the repository itself
computes (text trimming, JSON extraction and repair, schema validation,
prompt construction, the fetch fallback and the orchestrator) is
translated directly from the source.
-/

namespace ArticleSummarizer

abbrev PyStr := List Char

/-- Whitespace for Python `str.strip` and the `\s` regex class (ASCII part). -/
def pyWs (c : Char) : Bool :=
  c = ' ' || c = '\t' || c = '\n' || c = '\r' || c = '\x0b' || c = '\x0c'

/-- Whitespace accepted by the JSON grammar (`json.loads`). -/
def jsonWs (c : Char) : Bool :=
  c = ' ' || c = '\t' || c = '\n' || c = '\r'

def trimLeft (s : PyStr) : PyStr := s.dropWhile pyWs

def trimRight (s : PyStr) : PyStr := (trimLeft s.reverse).reverse

/-- Python `str.strip()`. -/
def pyStrip (s : PyStr) : PyStr := trimRight (trimLeft s)

/-- JSON values as produced by `json.loads`.  Numbers keep their lexeme. -/
inductive Json where
  | null
  | bool (b : Bool)
  | num (lex : PyStr)
  | str (s : PyStr)
  | arr (elems : List Json)
  | obj (fields : List (PyStr × Json))

def hexVal (c : Char) : Option Nat :=
  if '0' ≤ c ∧ c ≤ '9' then some (c.toNat - 48)
  else if 'a' ≤ c ∧ c ≤ 'f' then some (c.toNat - 87)
  else if 'A' ≤ c ∧ c ≤ 'F' then some (c.toNat - 55)
  else none

def consStr (c : Char) (r : Except Unit (PyStr × PyStr)) : Except Unit (PyStr × PyStr) :=
  r.map fun p => (c :: p.1, p.2)

/-- Body of a JSON string literal, after the opening quote (strict mode:
raw control characters are rejected, as `json.loads` does by default). -/
def parseStringBody : PyStr → Except Unit (PyStr × PyStr)
  | [] => Except.error ()
  | c :: rest =>
    if c = '"' then Except.ok ([], rest)
    else if c = '\\' then
      match rest with
      | [] => Except.error ()
      | e :: r2 =>
        if e = '"' then consStr '"' (parseStringBody r2)
        else if e = '\\' then consStr '\\' (parseStringBody r2)
        else if e = '/' then consStr '/' (parseStringBody r2)
        else if e = 'n' then consStr '\n' (parseStringBody r2)
        else if e = 't' then consStr '\t' (parseStringBody r2)
        else if e = 'r' then consStr '\r' (parseStringBody r2)
        else if e = 'b' then consStr '\x08' (parseStringBody r2)
        else if e = 'f' then consStr '\x0c' (parseStringBody r2)
        else if e = 'u' then
          match r2 with
          | h1 :: h2 :: h3 :: h4 :: r3 =>
            match hexVal h1, hexVal h2, hexVal h3, hexVal h4 with
            | some a, some b, some c', some d =>
                consStr (Char.ofNat (((a * 16 + b) * 16 + c') * 16 + d)) (parseStringBody r3)
            | _, _, _, _ => Except.error ()
          | _ => Except.error ()
        else Except.error ()
    else if c.toNat < 32 then Except.error ()
    else consStr c (parseStringBody rest)

def skipWs (s : PyStr) : PyStr := s.dropWhile jsonWs

def numChar (c : Char) : Bool :=
  c.isDigit || c = '-' || c = '+' || c = '.' || c = 'e' || c = 'E'

/-- A JSON number lexeme: maximal run of number characters (a mild
over-approximation of the RFC 8259 grammar, adequate for this pipeline:
the repository never serializes numbers). -/
def parseNumber (s : PyStr) : Except Unit (PyStr × PyStr) :=
  let lex := s.takeWhile numChar
  if lex = [] then Except.error () else Except.ok (lex, s.dropWhile numChar)

/-- Body of an object value after the opening brace, parameterized by
the member-list continuation. -/
def objBody (recM : PyStr → Except Unit (List (PyStr × Json) × PyStr)) (rest : PyStr) :
    Except Unit (Json × PyStr) :=
  match skipWs rest with
  | '\x7d' :: r => Except.ok (Json.obj [], r)
  | r => (recM r).map (fun p => (Json.obj p.1, p.2))

/-- Body of an array value after the opening bracket, parameterized by
the element-list continuation. -/
def arrBody (recE : PyStr → Except Unit (List Json × PyStr)) (rest : PyStr) :
    Except Unit (Json × PyStr) :=
  match skipWs rest with
  | ']' :: r => Except.ok (Json.arr [], r)
  | r => (recE r).map (fun p => (Json.arr p.1, p.2))

def trueBody : PyStr → Except Unit (Json × PyStr)
  | 'r' :: 'u' :: 'e' :: r => Except.ok (Json.bool true, r)
  | _ => Except.error ()

def falseBody : PyStr → Except Unit (Json × PyStr)
  | 'a' :: 'l' :: 's' :: 'e' :: r => Except.ok (Json.bool false, r)
  | _ => Except.error ()

def nullBody : PyStr → Except Unit (Json × PyStr)
  | 'u' :: 'l' :: 'l' :: r => Except.ok (Json.null, r)
  | _ => Except.error ()

mutual

def parseValue : Nat → PyStr → Except Unit (Json × PyStr)
  | 0, _ => Except.error ()
  | _ + 1, [] => Except.error ()
  | fuel + 1, c :: rest =>
    if c = '"' then (parseStringBody rest).map (fun p => (Json.str p.1, p.2))
    else if c = '\x7b' then objBody (parseMembers fuel) rest
    else if c = '[' then arrBody (parseElems fuel) rest
    else if c = 't' then trueBody rest
    else if c = 'f' then falseBody rest
    else if c = 'n' then nullBody rest
    else if c = '-' ∨ c.isDigit then
      (parseNumber (c :: rest)).map (fun p => (Json.num p.1, p.2))
    else Except.error ()

def parseMembers : Nat → PyStr → Except Unit (List (PyStr × Json) × PyStr)
  | 0, _ => Except.error ()
  | fuel + 1, s =>
    match s with
    | '"' :: rest =>
      match parseStringBody rest with
      | Except.error _ => Except.error ()
      | Except.ok (key, r1) =>
        match skipWs r1 with
        | ':' :: r2 =>
          match parseValue fuel (skipWs r2) with
          | Except.error _ => Except.error ()
          | Except.ok (v, r3) =>
            match skipWs r3 with
            | ',' :: r4 => (parseMembers fuel (skipWs r4)).map (fun p => ((key, v) :: p.1, p.2))
            | '\x7d' :: r4 => Except.ok ([(key, v)], r4)
            | _ => Except.error ()
        | _ => Except.error ()
    | _ => Except.error ()

def parseElems : Nat → PyStr → Except Unit (List Json × PyStr)
  | 0, _ => Except.error ()
  | fuel + 1, s =>
    match parseValue fuel s with
    | Except.error _ => Except.error ()
    | Except.ok (v, r1) =>
      match skipWs r1 with
      | ',' :: r2 => (parseElems fuel (skipWs r2)).map (fun p => (v :: p.1, p.2))
      | ']' :: r2 => Except.ok ([v], r2)
      | _ => Except.error ()

end

/-- Model of Python `json.loads`: a single JSON value, surrounded only by
whitespace. -/
def loads (s : PyStr) : Except Unit Json :=
  match parseValue (s.length + 1) (skipWs s) with
  | Except.error _ => Except.error ()
  | Except.ok (v, rest) => if skipWs rest = [] then Except.ok v else Except.error ()

/-! ### Standard JSON serialization (for the round-trip property) -/

def hexDigit (n : Nat) : Char :=
  if n < 10 then Char.ofNat (48 + n) else Char.ofNat (87 + n)

/-- Standard JSON string escaping, as `json.dumps` performs on ASCII
text: quote, backslash and the named control characters get two-character
escapes, remaining control characters get a `\u00XX` escape. -/
def escapeChar (c : Char) : PyStr :=
  if c = '"' then ['\\', '"']
  else if c = '\\' then ['\\', '\\']
  else if c = '\n' then ['\\', 'n']
  else if c = '\t' then ['\\', 't']
  else if c = '\r' then ['\\', 'r']
  else if c = '\x08' then ['\\', 'b']
  else if c = '\x0c' then ['\\', 'f']
  else if c.toNat < 32 then
    ['\\', 'u', '0', '0', hexDigit (c.toNat / 16), hexDigit (c.toNat % 16)]
  else [c]

def escapeString : PyStr → PyStr
  | [] => []
  | c :: cs => escapeChar c ++ escapeString cs

/-- The structured summary produced by the pipeline (pydantic model
`ArticleSummary` in src/main.py: judul = title, tanggal = publication
date, penulis = author, ringkasan = synopsis). -/
structure ArticleSummary where
  judul : PyStr
  tanggal : PyStr
  penulis : PyStr
  ringkasan : PyStr
deriving DecidableEq, Repr

/-- One `"key": "value"` member of the serialized summary, with an
explicit continuation so that reassociation lemmas stay easy. -/
def memberChunk (k v : PyStr) (tail : PyStr) : PyStr :=
  '"' :: (escapeString k ++ ('"' :: ':' :: ' ' :: ('"' :: (escapeString v ++ ('"' :: tail)))))

def membersText (a : ArticleSummary) : PyStr :=
  memberChunk "judul".toList a.judul
    (',' :: ' ' :: memberChunk "tanggal".toList a.tanggal
      (',' :: ' ' :: memberChunk "penulis".toList a.penulis
        (',' :: ' ' :: memberChunk "ringkasan".toList a.ringkasan [])))

/-- `json.dumps` of a well-formed ArticleSummary object. -/
def dumpsSummary (a : ArticleSummary) : PyStr :=
  '\x7b' :: (membersText a ++ ['\x7d'])

/-- The JSON object that `loads` recovers from `dumpsSummary a`. -/
def summaryJson (a : ArticleSummary) : Json :=
  Json.obj [("judul".toList, Json.str a.judul), ("tanggal".toList, Json.str a.tanggal),
    ("penulis".toList, Json.str a.penulis), ("ringkasan".toList, Json.str a.ringkasan)]

/-! ### The response parser (`safe_extract_json`, src/main.py lines 89-101) -/

/-- Models the first substitution in safe_extract_json, which deletes an
opening code fence, an optional case-insensitive json language tag and
the following whitespace; it is applied when the text is known to start
with the fence marker. -/
def dropOpenFence (s : PyStr) : PyStr :=
  let r := s.drop 3
  let r2 := if (r.take 4).map Char.toLower = "json".toList then r.drop 4 else r
  r2.dropWhile pyWs

/-- Models the second substitution in safe_extract_json, which deletes a
closing code fence at the end of the text together with the whitespace
just before it. -/
def fenceMarker : PyStr := ['`', '`', '`']

def dropCloseFence (s : PyStr) : PyStr :=
  if fenceMarker.isSuffixOf s then trimRight (s.take (s.length - 3)) else s

def firstIdx (c : Char) : PyStr → Option Nat
  | [] => none
  | x :: xs => if x = c then some 0 else (firstIdx c xs).map Nat.succ

/-- `s.rfind(c)` as an option. -/
def lastIdx (c : Char) (s : PyStr) : Option Nat :=
  (firstIdx c s.reverse).map (fun i => s.length - 1 - i)

/-- The fence-stripping step of safe_extract_json: both substitutions
run only when the stripped text starts with the fence marker. -/
def fenceStripped (s0 : PyStr) : PyStr :=
  if fenceMarker.isPrefixOf s0 then dropCloseFence (dropOpenFence s0) else s0

/-- The substring-extraction fallback of safe_extract_json: the text
between the first opening brace and the last closing brace, inclusive,
handed to json.loads again (whose own error then propagates). -/
def extractFallback (s : PyStr) : Except Unit Json :=
  match firstIdx '\x7b' s, lastIdx '\x7d' s with
  | some st, some en =>
    if st < en then loads ((s.drop st).take (en + 1 - st)) else Except.error ()
  | _, _ => Except.error ()

/-- safe_extract_json (src/main.py): strip whitespace, strip a markdown
code fence, try strict parsing, then fall back to the substring between
the first opening brace and the last closing brace. -/
def safe_extract_json (raw : PyStr) : Except Unit Json :=
  match loads (fenceStripped (pyStrip raw)) with
  | Except.ok j => Except.ok j
  | Except.error _ => extractFallback (fenceStripped (pyStrip raw))

/-! ### Schema validation (`ArticleSummary(**parsed_json)`, pydantic v2) -/

/-- The exception kinds that can escape `summarize_with_gemini`
(src/main.py lines 103-147); these are distinct Python exception
classes, all caught at the orchestrator boundary. -/
inductive GeminiError where
  | llmError (msg : PyStr)
  | jsonDecodeError
  | validationError
  | typeError
deriving DecidableEq, Repr

/-- Key lookup in a decoded JSON object; `json.loads` keeps the last
occurrence of a duplicated key. -/
def jLookup (fs : List (PyStr × Json)) (k : PyStr) : Option Json :=
  (fs.reverse.find? (fun p => p.1 == k)).map (·.2)

/-- Constructing the pydantic model from the decoded JSON: pydantic v2
requires each of the four fields to be present with a string value (v2
performs no int-to-str coercion); extra keys are ignored; a non-mapping
argument makes the keyword splat itself raise a TypeError. -/
def instantiateSummary (j : Json) : Except GeminiError ArticleSummary :=
  match j with
  | Json.obj fs =>
    match jLookup fs "judul".toList, jLookup fs "tanggal".toList,
          jLookup fs "penulis".toList, jLookup fs "ringkasan".toList with
    | some (Json.str a), some (Json.str b), some (Json.str c), some (Json.str d) =>
      Except.ok ⟨a, b, c, d⟩
    | _, _, _, _ => Except.error GeminiError.validationError
  | _ => Except.error GeminiError.typeError

/-- The response-parsing stage: extract a JSON object from the raw LLM
reply, then validate it against the schema.  `json.JSONDecodeError` and
pydantic `ValidationError` are distinct exception classes. -/
def parseSummary (raw : PyStr) : Except GeminiError ArticleSummary :=
  match safe_extract_json raw with
  | Except.error _ => Except.error GeminiError.jsonDecodeError
  | Except.ok j => instantiateSummary j

/-! ### The text normalizer (`clean_html`, src/main.py lines 66-71)

The parsed HTML document is modelled as a tree; parsing itself
(BeautifulSoup) is an external collaborator, abstracted as an oracle
where needed. -/

mutual
inductive HNode where
  | text (s : PyStr)
  | elem (tag : String) (children : HForest)
inductive HForest where
  | nil
  | cons (n : HNode) (rest : HForest)
end

def bannedTag (t : String) : Bool :=
  t = "script" || t = "style" || t = "noscript"

mutual
/-- Models decomposing every script, style and noscript element: the
element and its whole subtree are removed. -/
def removeBanned : HNode → HNode
  | .text s => .text s
  | .elem t cs => .elem t (removeBannedF cs)
def removeBannedF : HForest → HForest
  | .nil => .nil
  | .cons (.elem t k) cs =>
    if bannedTag t then removeBannedF cs else .cons (.elem t (removeBannedF k)) (removeBannedF cs)
  | .cons (.text s) cs => .cons (.text s) (removeBannedF cs)
end

mutual
/-- Depth-first document-order search for a tag, as soup.find does. -/
def findTagN (t : String) : HNode → Option HNode
  | .text _ => none
  | .elem tag cs => if tag = t then some (.elem tag cs) else findTagF t cs
def findTagF (t : String) : HForest → Option HNode
  | .nil => none
  | .cons n cs =>
    match findTagN t n with
    | some r => some r
    | none => findTagF t cs
end

/-- soup.find(tag): the soup object is the document root; find searches
its descendants. -/
def soupFind (t : String) (doc : HNode) : Option HNode :=
  match doc with
  | .elem _ cs => findTagF t cs
  | .text _ => none

/-- Python truthiness of a bs4 node in the or-chain: a Tag is always
truthy (bs4 defines its boolean conversion as constantly True, even for
an element with no contents), and a NavigableString is truthy when
non-empty.  find only ever returns Tags, so the chain in effect tests
for None. -/
def tagTruthy : HNode → Bool
  | .elem _ _ => true
  | .text s => !s.isEmpty

/-- A Python 'x or y' where x is an optional node: None is falsy, and a
found node contributes only when truthy. -/
def pyOr (a : Option HNode) (b : HNode) : HNode :=
  match a with
  | some n => if tagTruthy n then n else b
  | none => b

/-- The container chain: find article, or find main, or find body, or
the whole soup. -/
def selectContainer (doc : HNode) : HNode :=
  pyOr (soupFind "article" doc) (pyOr (soupFind "main" doc) (pyOr (soupFind "body" doc) doc))

mutual
/-- The stripped, non-empty text fragments of a subtree in document
order (get_text with strip=True collects exactly these). -/
def textFragmentsN : HNode → List PyStr
  | .text s => if (pyStrip s).isEmpty then [] else [pyStrip s]
  | .elem _ cs => textFragmentsF cs
def textFragmentsF : HForest → List PyStr
  | .nil => []
  | .cons n cs => textFragmentsN n ++ textFragmentsF cs
end

def joinSep (sep : PyStr) : List PyStr → PyStr
  | [] => []
  | [x] => x
  | x :: y :: ys => x ++ sep ++ joinSep sep (y :: ys)

/-- get_text(separator = newline, strip = True). -/
def getTextStrip (n : HNode) : PyStr := joinSep ['\n'] (textFragmentsN n)

/-- clean_html on an already-parsed document tree. -/
def cleanSoup (doc : HNode) : PyStr := getTextStrip (selectContainer (removeBanned doc))

/-- clean_html (src/main.py): parse the HTML (external), decompose the
no-render elements, select the container, extract its text. -/
def clean_html (parseHtml : PyStr → HNode) (html : PyStr) : PyStr := cleanSoup (parseHtml html)

/-! ### The fetcher (`crawl_url`, src/main.py lines 73-87 and
src/rnd/gemma_crawl.py lines 32-41) -/

/-- Result of the rich crawl (crawl4ai), when it does not raise. -/
structure CrawlResult where
  markdown : Option PyStr
  cleaned_html : Option PyStr
deriving DecidableEq, Repr

structure HttpResponse where
  status : Nat
  text : PyStr
deriving DecidableEq, Repr

/-- Python truthiness for an optional string attribute. -/
def truthyStr : Option PyStr → Bool
  | some s => !s.isEmpty
  | none => false

/-- Representative message of the httpx HTTPStatusError raised by
raise_for_status. -/
def statusErrMsg : PyStr := "HTTPStatusError: non-2xx response".toList

/-- The plain HTTP GET fallback tier of the fetcher (src/main.py lines
84-87): a GET with timeout 30, raise_for_status (raises for any non-2xx
status), then clean_html on the body.  Errors here propagate. -/
def httpFallback (parseHtml : PyStr → HNode) (httpGet : PyStr → Nat → Except PyStr HttpResponse)
    (url : PyStr) : Except PyStr PyStr :=
  match httpGet url 30 with
  | Except.error e => Except.error e
  | Except.ok resp =>
    if 200 ≤ resp.status ∧ resp.status < 300 then Except.ok (clean_html parseHtml resp.text)
    else Except.error statusErrMsg

/-- crawl_url (src/main.py): try the rich crawl; use its markdown if
truthy, else its cleaned html if truthy; on any crawl exception, or when
neither attribute is truthy, fall through to the HTTP GET fallback. -/
def crawl_url (parseHtml : PyStr → HNode) (crawl : PyStr → Except PyStr CrawlResult)
    (httpGet : PyStr → Nat → Except PyStr HttpResponse) (url : PyStr) : Except PyStr PyStr :=
  match crawl url with
  | Except.error _ => httpFallback parseHtml httpGet url
  | Except.ok r =>
    if truthyStr r.markdown then Except.ok (r.markdown.getD [])
    else if truthyStr r.cleaned_html then Except.ok (clean_html parseHtml (r.cleaned_html.getD []))
    else httpFallback parseHtml httpGet url

/-- crawl_url (src/rnd/gemma_crawl.py): fallback only on a crawl
exception; the fallback GET has no raise_for_status and returns the
response body whatever the status; a crawl success returns markdown if
truthy else the cleaned_html attribute as-is (possibly None). -/
def crawl_url_gemma (crawl : PyStr → Except PyStr CrawlResult)
    (httpGet : PyStr → Nat → Except PyStr HttpResponse) (url : PyStr) :
    Except PyStr (Option PyStr) :=
  match crawl url with
  | Except.ok r => Except.ok (if truthyStr r.markdown then r.markdown else r.cleaned_html)
  | Except.error _ =>
    match httpGet url 30 with
    | Except.error e => Except.error e
    | Except.ok resp => Except.ok (some resp.text)

/-! ### The style registry (STYLE_CONTEXTS, src/main.py lines 33-64) -/

structure StyleDef where
  name : PyStr
  description : PyStr
  prompt_addition : PyStr
deriving DecidableEq, Repr

def formalStyle : StyleDef :=
  ⟨"Formal".toList, "Bahasa resmi dan akademis".toList,
   ("Gunakan bahasa formal yang sesuai untuk dokumen resmi, akademis, atau profesional. Hindari kontraksi dan gunakan struktur kalimat yang lengkap dan baku. Gunakan terminologi yang tepat dan presisi.").toList⟩

def casualStyle : StyleDef :=
  ⟨"Kasual".toList, "Bahasa santai dan mudah dipahami".toList,
   ("Gunakan bahasa yang santai, ramah, dan mudah dipahami seperti berbicara dengan teman. Boleh menggunakan kontraksi dan kata-kata sehari-hari. Buatlah seperti sedang bercerita kepada teman.").toList⟩

def professionalStyle : StyleDef :=
  ⟨"Profesional".toList, "Bahasa bisnis dan teknis".toList,
   ("Gunakan bahasa profesional yang cocok untuk lingkungan bisnis atau kerja. Fokus pada aspek praktis, dampak, dan implikasi bisnis. Gunakan terminologi industri yang relevan.").toList⟩

def journalisticStyle : StyleDef :=
  ⟨"Jurnalistik".toList, "Gaya berita dan informatif".toList,
   ("Gunakan gaya penulisan jurnalistik yang objektif, informatif, dan menarik. Fokus pada fakta-fakta penting, siapa, apa, kapan, di mana, mengapa, dan bagaimana. Gunakan lead yang kuat.").toList⟩

def educationalStyle : StyleDef :=
  ⟨"Edukatif".toList, "Gaya pengajaran dan pembelajaran".toList,
   ("Gunakan pendekatan edukatif seperti seorang guru atau dosen yang menjelaskan materi kepada siswa. Berikan konteks, penjelasan istilah yang mungkin tidak familiar, dan hubungkan dengan konsep yang lebih besar.").toList⟩

def simpleStyle : StyleDef :=
  ⟨"Sederhana".toList, "Bahasa yang sangat mudah dipahami".toList,
   ("Gunakan bahasa yang sangat sederhana dan mudah dipahami oleh semua kalangan. Hindari jargon teknis, gunakan kata-kata sehari-hari, dan jelaskan konsep rumit dengan analogi sederhana.").toList⟩

def STYLE_CONTEXTS : List (PyStr × StyleDef) :=
  [("formal".toList, formalStyle), ("casual".toList, casualStyle), ("professional".toList, professionalStyle),
   ("journalistic".toList, journalisticStyle), ("educational".toList, educationalStyle), ("simple".toList, simpleStyle)]

/-- STYLE_CONTEXTS.get(style, STYLE_CONTEXTS["casual"]) — the in-pipeline
lookup with its silent fallback to the default style. -/
def styleLookup (style : PyStr) : StyleDef :=
  (STYLE_CONTEXTS.lookup style).getD casualStyle

/-! ### The prompt builder (inside summarize_with_gemini, src/main.py
lines 103-131, and summarize_with_ollama, src/rnd/gemma_crawl.py lines
43-54) -/

/-- The silent 10,000-character prefix truncation applied to the article
text before it is embedded in a prompt. -/
def truncate10000 (text : PyStr) : PyStr :=
  if text.length > 10000 then text.take 10000 else text

def promptPart1 : PyStr :=
  ("\n    Analisis artikel berikut dan berikan ringkasan dalam format JSON yang valid dengan struktur:\n    \x7b\n        \"judul\": \"judul artikel\",\n        \"tanggal\": \"tanggal publikasi atau \x27tidak tersedia\x27\",\n        \"penulis\": \"nama penulis atau \x27tidak tersedia\x27\", \n        \"ringkasan\": \"ringkasan artikel\"\n    \x7d\n\n    INSTRUKSI GAYA PENULISAN:\n    ").toList

def promptPart2 : PyStr :=
  ("\n\n    INSTRUKSI RINGKASAN:\n    Pelajari isi artikel yang sudah diberikan lalu berikan kepada saya penjelasan yang singkat, jelas, dan padat dari artikel tersebut. Buat ringkasan dalam bentuk paragraf sepanjang 5 kalimat dan pada setiap kalimat saya berharap Anda mencantumkan poin penting dari artikel yang telah dibaca. \n\n    Berikan dengan kata-kata Anda sendiri yang dapat mudah dipahami. Intinya bukan membahas tentang apa yang ada di dalam artikel, namun artikel tersebut membahas apa dan Anda menjelaskannya kepada saya, layaknya seorang dosen yang membaca buku lalu memberikan penjelasan terhadap mahasiswanya.\n\n    PENTING: Gunakan bahasa Indonesia yang sesuai dengan gaya \"").toList

def promptPart3 : PyStr :=
  ("\" yang telah dipilih.\n    \n    Artikel:\n    ").toList

def promptPart4 : PyStr := "\n    ".toList

/-- The Gemini prompt, as an f-string over the style fragment, the style
display name and the (already truncated) article text. -/
def buildGeminiPrompt (cfg : StyleDef) (text : PyStr) : PyStr :=
  promptPart1 ++ cfg.prompt_addition ++ promptPart2 ++ cfg.name ++ promptPart3 ++ text ++ promptPart4

def ollamaPromptHead : PyStr :=
  ("\n    Buat ringkasan 5 kalimat yang jelas, padat, dan mudah dipahami dari artikel berikut.\n    Sertakan poin-poin penting yang dibahas.\n\n    Artikel:\n    ").toList

def ollamaPromptTail : PyStr := "\n    ".toList

/-- The prompt summarize_with_ollama sends, including its own
10,000-character truncation of the article text. -/
def ollamaPromptFor (text : PyStr) : PyStr :=
  ollamaPromptHead ++ truncate10000 text ++ ollamaPromptTail

/-! ### The LLM stage (summarize_with_gemini, src/main.py lines 103-147) -/

/-- summarize_with_gemini: truncate the text, resolve the style with the
silent default, build the prompt, call the LLM endpoint (an oracle whose
error covers non-2xx, network failure and a malformed response shape),
strip the reply and run the response parsing and validation stage. -/
def summarize_with_gemini (llm : PyStr → Except PyStr PyStr) (text : PyStr) (style : PyStr) :
    Except GeminiError ArticleSummary :=
  match llm (buildGeminiPrompt (styleLookup style) (truncate10000 text)) with
  | Except.error e => Except.error (GeminiError.llmError e)
  | Except.ok raw => parseSummary (pyStrip raw)

/-! ### The orchestrator (summarize, src/main.py lines 156-189) -/

inductive Outcome where
  | success (data : ArticleSummary) (url : PyStr) (style : PyStr) (style_info : StyleDef)
  | failure (error : PyStr)
deriving DecidableEq, Repr

/-- Which external calls the request made (for the no-network-call
properties of the spec). -/
structure CallTrace where
  fetchCalled : Bool
  llmCalled : Bool
deriving DecidableEq, Repr

def styleErrorMsg (style : PyStr) : PyStr :=
  "Gaya \x27".toList ++ style ++ "\x27 tidak valid. Pilih dari: ".toList ++
    joinSep ", ".toList (STYLE_CONTEXTS.map (·.1))

def tooShortMsg : PyStr :=
  "Artikel terlalu pendek atau tidak dapat diambil. Pastikan URL artikel valid.".toList

/-- The except-branch message: Gagal memproses artikel followed by the
text of the caught exception. -/
def gagalMsg (e : PyStr) : PyStr := "Gagal memproses artikel: ".toList ++ e

/-- Representative str(e) of each exception kind that can escape
summarize_with_gemini. -/
def errText : GeminiError → PyStr
  | GeminiError.llmError m => m
  | GeminiError.jsonDecodeError => "Expecting value: line 1 column 1 (char 0)".toList
  | GeminiError.validationError => "validation error for ArticleSummary".toList
  | GeminiError.typeError => "argument after ** must be a mapping".toList

/-- URL normalization: default the scheme to https when absent. -/
def normalizeUrl (url : PyStr) : PyStr :=
  if "http://".toList.isPrefixOf url || "https://".toList.isPrefixOf url then url
  else "https://".toList ++ url

/-- The summarize endpoint (src/main.py lines 156-189), with a trace of
which network stages were invoked.  Its body is one big try block: any
stage error becomes a success=false JSON response. -/
def summarize (parseHtml : PyStr → HNode) (crawl : PyStr → Except PyStr CrawlResult)
    (httpGet : PyStr → Nat → Except PyStr HttpResponse) (llm : PyStr → Except PyStr PyStr)
    (url style : PyStr) : Outcome × CallTrace :=
  if (STYLE_CONTEXTS.lookup style).isSome then
    match crawl_url parseHtml crawl httpGet (normalizeUrl url) with
    | Except.error e => (Outcome.failure (gagalMsg e), ⟨true, false⟩)
    | Except.ok article_text =>
      if article_text.isEmpty || (pyStrip article_text).length < 100 then
        (Outcome.failure tooShortMsg, ⟨true, false⟩)
      else
        match summarize_with_gemini llm article_text style with
        | Except.error ge => (Outcome.failure (gagalMsg (errText ge)), ⟨true, true⟩)
        | Except.ok summary =>
          (Outcome.success summary (normalizeUrl url) style (styleLookup style), ⟨true, true⟩)
  else (Outcome.failure (styleErrorMsg style), ⟨false, false⟩)

/-! ## Lemmas about trimming -/

theorem trimLeft_append (a b : PyStr) :
    trimLeft (a ++ b) = if trimLeft a = [] then trimLeft b else trimLeft a ++ b := by
  induction a with
  | nil => simp [trimLeft]
  | cons x xs ih =>
    by_cases hx : pyWs x
    · simpa [trimLeft, List.dropWhile_cons, hx] using ih
    · simp [trimLeft, List.dropWhile_cons, hx]

theorem trimRight_append (a b : PyStr) :
    trimRight (a ++ b) = if trimRight b = [] then trimRight a else a ++ trimRight b := by
  unfold trimRight
  rw [List.reverse_append, trimLeft_append]
  by_cases h : trimLeft b.reverse = []
  · simp [h]
  · simp [h, List.reverse_eq_nil_iff, List.reverse_append]

theorem trimLeft_cons_of_not_ws (c : Char) (b : PyStr) (hc : pyWs c = false) :
    trimLeft (c :: b) = c :: b := by
  simp [trimLeft, List.dropWhile_cons, hc]

theorem trimRight_append_singleton_of_not_ws (a : PyStr) (c : Char) (hc : pyWs c = false) :
    trimRight (a ++ [c]) = a ++ [c] := by
  rw [trimRight_append]
  simp [trimRight, trimLeft, List.dropWhile_cons, hc]

/-! ## Round trip of JSON string literals -/

theorem hexVal_hexDigit : ∀ n, n < 16 → hexVal (hexDigit n) = some n := by decide

theorem parseStringBody_escape (x rest : PyStr) :
    parseStringBody (escapeString x ++ ('"' :: rest)) = Except.ok (x, rest) := by
  induction x generalizing rest with
  | nil =>
    show parseStringBody ('"' :: rest) = _
    rw [parseStringBody.eq_def]; simp
  | cons c cs ih =>
    show parseStringBody ((escapeChar c ++ escapeString cs) ++ ('"' :: rest)) = _
    rw [List.append_assoc]
    by_cases h1 : c = '"'
    · subst h1; simp only [escapeChar, reduceIte, List.cons_append, List.nil_append]
      rw [parseStringBody.eq_def]; simp [consStr, Except.map, ih]
    by_cases h2 : c = '\\'
    · subst h2; simp only [escapeChar, reduceIte, List.cons_append, List.nil_append]
      rw [parseStringBody.eq_def]; simp [consStr, Except.map, ih]
    by_cases h3 : c = '\n'
    · subst h3; simp only [escapeChar, reduceIte, List.cons_append, List.nil_append]
      rw [parseStringBody.eq_def]; simp [consStr, Except.map, ih]
    by_cases h4 : c = '\t'
    · subst h4; simp only [escapeChar, reduceIte, List.cons_append, List.nil_append]
      rw [parseStringBody.eq_def]; simp [consStr, Except.map, ih]
    by_cases h5 : c = '\r'
    · subst h5; simp only [escapeChar, reduceIte, List.cons_append, List.nil_append]
      rw [parseStringBody.eq_def]; simp [consStr, Except.map, ih]
    by_cases h6 : c = '\x08'
    · subst h6; simp only [escapeChar, reduceIte, List.cons_append, List.nil_append]
      rw [parseStringBody.eq_def]; simp [consStr, Except.map, ih]
    by_cases h7 : c = '\x0c'
    · subst h7; simp only [escapeChar, reduceIte, List.cons_append, List.nil_append]
      rw [parseStringBody.eq_def]; simp [consStr, Except.map, ih]
    by_cases h8 : c.toNat < 32
    · have hdiv : c.toNat / 16 < 16 := by omega
      have hmod : c.toNat % 16 < 16 := Nat.mod_lt _ (by omega)
      have hv : c.toNat / 16 * 16 + c.toNat % 16 = c.toNat := by omega
      simp only [escapeChar, if_neg h1, if_neg h2, if_neg h3, if_neg h4, if_neg h5, if_neg h6,
        if_neg h7, if_pos h8, List.cons_append, List.nil_append]
      rw [parseStringBody.eq_def]
      simp only [reduceIte, hexVal_hexDigit _ hdiv, hexVal_hexDigit _ hmod,
        show hexVal '0' = some 0 from by decide]
      simp only [Nat.zero_mul, Nat.zero_add, hv, Char.ofNat_toNat]
      simp [consStr, Except.map, ih]
    · have hc : escapeChar c = [c] := by
        simp [escapeChar, h1, h2, h3, h4, h5, h6, h7, h8]
      rw [hc]
      show parseStringBody (c :: (escapeString cs ++ '"' :: rest)) = _
      rw [parseStringBody.eq_def]
      simp [h1, h2, h8, consStr, Except.map, ih]

/-! ## Parsing the serialized summary object -/

theorem skipWs_cons_of_not_ws (c : Char) (l : PyStr) (hc : jsonWs c = false) :
    skipWs (c :: l) = c :: l := by
  simp [skipWs, List.dropWhile_cons, hc]

theorem memberChunk_append (k v t X : PyStr) :
    memberChunk k v t ++ X = memberChunk k v (t ++ X) := by
  simp [memberChunk]

theorem skipWs_ws (c : Char) (l : PyStr) (hc : jsonWs c = true) : skipWs (c :: l) = skipWs l := by
  simp [skipWs, List.dropWhile_cons, hc]

theorem skipWs_memberChunk (k v t : PyStr) : skipWs (memberChunk k v t) = memberChunk k v t := by
  show skipWs ('"' :: _) = _
  exact skipWs_cons_of_not_ws '"' _ (by decide)

theorem parseValue_str (f : Nat) (v rest : PyStr) :
    parseValue (f + 1) ('"' :: (escapeString v ++ ('"' :: rest))) = Except.ok (Json.str v, rest) := by
  unfold parseValue
  simp [parseStringBody_escape, Except.map]

theorem parseMembers_last (f : Nat) (k v rest : PyStr) :
    parseMembers (f + 2) (memberChunk k v ('\x7d' :: rest)) =
      Except.ok ([(k, Json.str v)], rest) := by
  show parseMembers (f + 2)
    ('"' :: (escapeString k ++ ('"' :: ':' :: ' ' :: ('"' :: (escapeString v ++ ('"' :: '\x7d' :: rest)))))) = _
  rw [parseMembers.eq_def]
  simp only [parseStringBody_escape]
  rw [skipWs_cons_of_not_ws ':' _ (by decide)]
  simp +decide only []
  rw [skipWs_ws ' ' _ (by decide), skipWs_cons_of_not_ws '"' _ (by decide)]
  rw [parseValue_str]
  simp +decide only []
  rw [skipWs_cons_of_not_ws '\x7d' _ (by decide)]
  simp +decide only []

theorem parseMembers_cons (f : Nat) (k v restm : PyStr) (ms : List (PyStr × Json)) (rest : PyStr)
    (hr : skipWs restm = restm)
    (h : parseMembers (f + 1) restm = Except.ok (ms, rest)) :
    parseMembers (f + 2) (memberChunk k v (',' :: ' ' :: restm)) =
      Except.ok ((k, Json.str v) :: ms, rest) := by
  show parseMembers (f + 2)
    ('"' :: (escapeString k ++ ('"' :: ':' :: ' ' :: ('"' :: (escapeString v ++ ('"' :: ',' :: ' ' :: restm)))))) = _
  rw [parseMembers.eq_def]
  simp only [parseStringBody_escape]
  rw [skipWs_cons_of_not_ws ':' _ (by decide)]
  simp +decide only []
  rw [skipWs_ws ' ' _ (by decide), skipWs_cons_of_not_ws '"' _ (by decide)]
  rw [parseValue_str]
  simp +decide only []
  rw [skipWs_cons_of_not_ws ',' _ (by decide)]
  simp +decide only []
  rw [skipWs_ws ' ' _ (by decide), hr, h]
  simp [Except.map]

theorem objBody_memberChunk (recM : PyStr → Except Unit (List (PyStr × Json) × PyStr)) (k v t : PyStr) :
    objBody recM (memberChunk k v t) = (recM (memberChunk k v t)).map (fun p => (Json.obj p.1, p.2)) := by
  show objBody recM ('"' :: (escapeString k ++ ('"' :: ':' :: ' ' :: ('"' :: (escapeString v ++ ('"' :: t)))))) = _
  unfold objBody
  rw [skipWs_cons_of_not_ws '"' _ (by decide)]
  split
  · rename_i r heq
    simp at heq
  · rfl

theorem parseValue_dumps (f : Nat) (a : ArticleSummary) (rest : PyStr) :
    parseValue (f + 6) (dumpsSummary a ++ rest) = Except.ok (summaryJson a, rest) := by
  have hsh : dumpsSummary a ++ rest
      = '\x7b' :: memberChunk "judul".toList a.judul
          (',' :: ' ' :: memberChunk "tanggal".toList a.tanggal
            (',' :: ' ' :: memberChunk "penulis".toList a.penulis
              (',' :: ' ' :: memberChunk "ringkasan".toList a.ringkasan ('\x7d' :: rest)))) := by
    simp [dumpsSummary, membersText, memberChunk]
  rw [hsh]
  unfold parseValue
  simp +decide only []
  rw [objBody_memberChunk]
  have h4 := parseMembers_last f "ringkasan".toList a.ringkasan rest
  have h3 := parseMembers_cons (f + 1) "penulis".toList a.penulis _ _ rest (skipWs_memberChunk _ _ _) h4
  have h2 := parseMembers_cons (f + 2) "tanggal".toList a.tanggal _ _ rest (skipWs_memberChunk _ _ _) h3
  have h1 := parseMembers_cons (f + 3) "judul".toList a.judul _ _ rest (skipWs_memberChunk _ _ _) h2
  rw [h1]
  simp [Except.map, summaryJson]

/-! ## Lemmas about loads -/

theorem dumpsSummary_length (a : ArticleSummary) : 6 ≤ (dumpsSummary a).length := by
  simp [dumpsSummary, membersText, memberChunk]
  omega

theorem skipWs_dumps_append (a : ArticleSummary) (V : PyStr) :
    skipWs (dumpsSummary a ++ V) = dumpsSummary a ++ V := by
  show skipWs (('\x7b' :: (membersText a ++ ['\x7d'])) ++ V) = _
  rw [List.cons_append]
  exact skipWs_cons_of_not_ws _ _ (by decide)

theorem loads_dumps_append (a : ArticleSummary) (V : PyStr) :
    loads (dumpsSummary a ++ V) =
      if skipWs V = [] then Except.ok (summaryJson a) else Except.error () := by
  unfold loads
  have h6 := dumpsSummary_length a
  have hlen : (dumpsSummary a ++ V).length + 1 = ((dumpsSummary a ++ V).length + 1 - 6) + 6 := by
    simp [List.length_append]; omega
  rw [skipWs_dumps_append, hlen, parseValue_dumps]

theorem loads_dumps (a : ArticleSummary) : loads (dumpsSummary a) = Except.ok (summaryJson a) := by
  have h := loads_dumps_append a []
  simpa [skipWs] using h

theorem loads_dumps_append_garbage (a : ArticleSummary) (V : PyStr) (c : Char)
    (hc : c ∈ V) (hws : jsonWs c = false) :
    loads (dumpsSummary a ++ V) = Except.error () := by
  rw [loads_dumps_append]
  have : skipWs V ≠ [] := by
    induction V with
    | nil => cases hc
    | cons x xs ih =>
      by_cases hx : jsonWs x
      · rw [skipWs_ws _ _ hx]
        rcases List.mem_cons.mp hc with h | h
        · subst h; rw [hx] at hws; cases hws
        · exact ih h
      · rw [skipWs_cons_of_not_ws _ _ (by simpa using hx)]
        simp
  simp [this]

/-! ## Locating the braces for the substring-extraction fallback -/

theorem firstIdx_append_self (c : Char) (A X : PyStr) (h : c ∉ A) :
    firstIdx c (A ++ (c :: X)) = some A.length := by
  induction A with
  | nil => simp [firstIdx]
  | cons x xs ih =>
    have hx : ¬ x = c := fun e => h (by simp [e])
    have hxs : c ∉ xs := fun hm => h (List.mem_cons_of_mem _ hm)
    simp [firstIdx, hx, ih hxs]

theorem lastIdx_append_self (c : Char) (Y Z : PyStr) (h : c ∉ Z) :
    lastIdx c (Y ++ (c :: Z)) = some Y.length := by
  unfold lastIdx
  rw [List.reverse_append, List.reverse_cons, List.append_assoc, List.singleton_append]
  rw [firstIdx_append_self c _ _ (by simpa using h)]
  simp [List.length_append]

/-! ## Commentary vocabulary for the round-trip claim -/

/-- No literal braces: the substring-extraction fallback is only safe
when the surrounding commentary contains none. -/
def braceFree (s : PyStr) : Bool := s.all (fun c => !(c = '\x7b' || c = '\x7d'))

def openFenceJson : PyStr := "```json\n".toList

def closeFence : PyStr := "\n```".toList

/-- Wrapping a text in a fenced code block tagged json, with surrounding
commentary. -/
def fencedWrap (pre t post : PyStr) : PyStr :=
  pre ++ (openFenceJson ++ (t ++ (closeFence ++ post)))

theorem braceFree_not_mem_open {s : PyStr} (h : braceFree s = true) : '\x7b' ∉ s := by
  intro hm
  have := List.all_eq_true.mp h _ hm
  simp at this

theorem braceFree_not_mem_close {s : PyStr} (h : braceFree s = true) : '\x7d' ∉ s := by
  intro hm
  have := List.all_eq_true.mp h _ hm
  simp at this

theorem mem_trimLeft_sub {c : Char} {s : PyStr} (h : c ∈ trimLeft s) : c ∈ s :=
  (List.dropWhile_sublist _).subset h

theorem mem_trimRight_sub {c : Char} {s : PyStr} (h : c ∈ trimRight s) : c ∈ s := by
  unfold trimRight at h
  rw [List.mem_reverse] at h
  have := (List.dropWhile_sublist _).subset h
  rwa [List.mem_reverse] at this

theorem jsonWs_false_of_pyWs_false (c : Char) (h : pyWs c = false) : jsonWs c = false := by
  simp only [pyWs, Bool.or_eq_false_iff, decide_eq_false_iff_not] at h
  simp only [jsonWs, Bool.or_eq_false_iff, decide_eq_false_iff_not]
  exact ⟨⟨⟨h.1.1.1.1.1, h.1.1.1.1.2⟩, h.1.1.1.2⟩, h.1.1.2⟩

theorem dropWhile_head_false {p : Char → Bool} {l : List Char} {c : Char} {cs : List Char}
    (h : l.dropWhile p = c :: cs) : p c = false := by
  induction l with
  | nil => simp at h
  | cons x xs ih =>
    rw [List.dropWhile_cons] at h
    by_cases hx : p x
    · rw [if_pos hx] at h; exact ih h
    · rw [if_neg hx] at h
      cases h
      simpa using hx

theorem braceFree_cons (c : Char) (s : PyStr) :
    braceFree (c :: s) = (!(c = '\x7b' || c = '\x7d') && braceFree s) := by
  simp [braceFree]

theorem braceFree_append (a b : PyStr) :
    braceFree (a ++ b) = (braceFree a && braceFree b) := by
  simp [braceFree, List.all_append]

/-- The remnant of the opening fence that stays in front of the payload
whenever leading commentary is present. -/
def fenceRemnant (R : PyStr) : PyStr := '`' :: 'j' :: 's' :: 'o' :: 'n' :: '\n' :: R

theorem psb_remnant_nil (R : PyStr) :
    parseStringBody (fenceRemnant R) = Except.error () := by
  show parseStringBody ('`' :: 'j' :: 's' :: 'o' :: 'n' :: '\n' :: R) = _
  rw [parseStringBody.eq_def]
  simp only [reduceIte, Char.reduceEq, reduceCtorEq]
  rw [parseStringBody.eq_def]
  simp only [reduceIte, Char.reduceEq, reduceCtorEq]
  rw [parseStringBody.eq_def]
  simp only [reduceIte, Char.reduceEq, reduceCtorEq]
  rw [parseStringBody.eq_def]
  simp only [reduceIte, Char.reduceEq, reduceCtorEq]
  rw [parseStringBody.eq_def]
  simp only [reduceIte, Char.reduceEq, reduceCtorEq]
  rw [parseStringBody.eq_def]
  simp [consStr, Except.map]


/-- Passing a recursive string-body result through one consumed
character preserves the shape disjunction. -/
theorem consStr_shape (d : Char) (Y R : PyStr)
    (hrec : parseStringBody (Y ++ fenceRemnant R) = Except.error () ∨
      ∃ st Y2, parseStringBody (Y ++ fenceRemnant R) = Except.ok (st, Y2 ++ fenceRemnant R) ∧
        braceFree Y2 = true) :
    consStr d (parseStringBody (Y ++ fenceRemnant R)) = Except.error () ∨
    ∃ st Y2, consStr d (parseStringBody (Y ++ fenceRemnant R))
      = Except.ok (st, Y2 ++ fenceRemnant R) ∧ braceFree Y2 = true := by
  rcases hrec with h | ⟨st, Y2, h, hb⟩
  · left; rw [h]; rfl
  · right; exact ⟨d :: st, Y2, by rw [h]; rfl, hb⟩

/-- A string literal that starts in commentary either fails (in
particular when it runs into the remnant, whose raw newline strict mode
rejects: no quote occurs between the remnant backtick and that newline)
or closes within the commentary, leaving the remnant intact. -/
theorem psb_remnant (X R : PyStr) (hX : braceFree X = true) :
    parseStringBody (X ++ fenceRemnant R) = Except.error () ∨
    ∃ st X2, parseStringBody (X ++ fenceRemnant R) = Except.ok (st, X2 ++ fenceRemnant R) ∧
      braceFree X2 = true := by
  have main : ∀ n (X : PyStr), X.length ≤ n → braceFree X = true →
      parseStringBody (X ++ fenceRemnant R) = Except.error () ∨
      ∃ st X2, parseStringBody (X ++ fenceRemnant R) = Except.ok (st, X2 ++ fenceRemnant R) ∧
        braceFree X2 = true := by
    intro n
    induction n with
    | zero =>
      intro X hlen _
      have hX0 : X = [] := List.eq_nil_of_length_eq_zero (Nat.le_zero.mp hlen)
      subst hX0
      exact Or.inl (psb_remnant_nil R)
    | succ n ih =>
      intro X hlen hX
      rcases X with _ | ⟨c, X1⟩
      · exact Or.inl (psb_remnant_nil R)
      have hX1 : braceFree X1 = true := by
        rw [braceFree_cons] at hX
        simp at hX
        exact hX.2
      have hlen1 : X1.length ≤ n := by simpa using hlen
      by_cases h1 : c = '"'
      · subst h1
        right
        exact ⟨[], X1, by rw [parseStringBody.eq_def]; simp, hX1⟩
      by_cases h2 : c = '\\'
      · subst h2
        rcases X1 with _ | ⟨e, X2⟩
        · left
          show parseStringBody ('\\' :: fenceRemnant R) = _
          rw [parseStringBody.eq_def]
          simp [fenceRemnant]
        have hX2 : braceFree X2 = true := by
          rw [braceFree_cons] at hX1
          simp at hX1
          exact hX1.2
        have hlen2 : X2.length ≤ n := by simp at hlen; omega
        by_cases he1 : e = '"'
        · subst he1
          rcases consStr_shape '"' X2 R (ih X2 hlen2 hX2) with h | ⟨st, X2', h, hb⟩
          · left; rw [parseStringBody.eq_def]; simpa using h
          · right; exact ⟨st, X2', by rw [parseStringBody.eq_def]; simpa using h, hb⟩
        by_cases he2 : e = '\\'
        · subst he2
          rcases consStr_shape '\\' X2 R (ih X2 hlen2 hX2) with h | ⟨st, X2', h, hb⟩
          · left; rw [parseStringBody.eq_def]; simpa using h
          · right; exact ⟨st, X2', by rw [parseStringBody.eq_def]; simpa using h, hb⟩
        by_cases he3 : e = '/'
        · subst he3
          rcases consStr_shape '/' X2 R (ih X2 hlen2 hX2) with h | ⟨st, X2', h, hb⟩
          · left; rw [parseStringBody.eq_def]; simpa using h
          · right; exact ⟨st, X2', by rw [parseStringBody.eq_def]; simpa using h, hb⟩
        by_cases he4 : e = 'n'
        · subst he4
          rcases consStr_shape '\n' X2 R (ih X2 hlen2 hX2) with h | ⟨st, X2', h, hb⟩
          · left; rw [parseStringBody.eq_def]; simpa using h
          · right; exact ⟨st, X2', by rw [parseStringBody.eq_def]; simpa using h, hb⟩
        by_cases he5 : e = 't'
        · subst he5
          rcases consStr_shape '\t' X2 R (ih X2 hlen2 hX2) with h | ⟨st, X2', h, hb⟩
          · left; rw [parseStringBody.eq_def]; simpa using h
          · right; exact ⟨st, X2', by rw [parseStringBody.eq_def]; simpa using h, hb⟩
        by_cases he6 : e = 'r'
        · subst he6
          rcases consStr_shape '\r' X2 R (ih X2 hlen2 hX2) with h | ⟨st, X2', h, hb⟩
          · left; rw [parseStringBody.eq_def]; simpa using h
          · right; exact ⟨st, X2', by rw [parseStringBody.eq_def]; simpa using h, hb⟩
        by_cases he7 : e = 'b'
        · subst he7
          rcases consStr_shape '\x08' X2 R (ih X2 hlen2 hX2) with h | ⟨st, X2', h, hb⟩
          · left; rw [parseStringBody.eq_def]; simpa using h
          · right; exact ⟨st, X2', by rw [parseStringBody.eq_def]; simpa using h, hb⟩
        by_cases he8 : e = 'f'
        · subst he8
          rcases consStr_shape '\x0c' X2 R (ih X2 hlen2 hX2) with h | ⟨st, X2', h, hb⟩
          · left; rw [parseStringBody.eq_def]; simpa using h
          · right; exact ⟨st, X2', by rw [parseStringBody.eq_def]; simpa using h, hb⟩
        by_cases he9 : e = 'u'
        · subst he9
          rcases X2 with _ | ⟨a, X3⟩
          · left
            rw [parseStringBody.eq_def]
            simp [fenceRemnant, hexVal]
          rcases X3 with _ | ⟨b, X4⟩
          · left
            rw [parseStringBody.eq_def]
            cases hva : hexVal a <;> simp [fenceRemnant, hva, show hexVal '`' = none from rfl]
          rcases X4 with _ | ⟨c', X5⟩
          · left
            rw [parseStringBody.eq_def]
            cases hva : hexVal a <;> cases hvb : hexVal b <;>
              simp [fenceRemnant, hva, hvb, show hexVal '`' = none from rfl]
          rcases X5 with _ | ⟨d, X6⟩
          · left
            rw [parseStringBody.eq_def]
            cases hva : hexVal a <;> cases hvb : hexVal b <;> cases hvc : hexVal c' <;>
              simp [fenceRemnant, hva, hvb, hvc, show hexVal '`' = none from rfl]
          have hX6 : braceFree X6 = true := by
            simp [braceFree] at hX2 ⊢
            exact fun x hx => hX2.2.2.2.2 x hx
          have hlen6 : X6.length ≤ n := by simp at hlen; omega
          cases hva : hexVal a with
          | none => left; rw [parseStringBody.eq_def]; simp [hva]
          | some va =>
            cases hvb : hexVal b with
            | none => left; rw [parseStringBody.eq_def]; simp [hva, hvb]
            | some vb =>
              cases hvc : hexVal c' with
              | none => left; rw [parseStringBody.eq_def]; simp [hva, hvb, hvc]
              | some vc =>
                cases hvd : hexVal d with
                | none => left; rw [parseStringBody.eq_def]; simp [hva, hvb, hvc, hvd]
                | some vd =>
                  rcases consStr_shape (Char.ofNat (((va * 16 + vb) * 16 + vc) * 16 + vd))
                      X6 R (ih X6 hlen6 hX6) with h | ⟨st, X2', h, hb⟩
                  · left
                    rw [parseStringBody.eq_def]
                    simpa [hva, hvb, hvc, hvd] using h
                  · right
                    exact ⟨st, X2', by
                      rw [parseStringBody.eq_def]
                      simpa [hva, hvb, hvc, hvd] using h, hb⟩
        · left
          rw [parseStringBody.eq_def]
          simp [he1, he2, he3, he4, he5, he6, he7, he8, he9]
      by_cases h3 : c.toNat < 32
      · left
        rw [parseStringBody.eq_def]
        simp [h1, h2, h3]
      · rcases consStr_shape c X1 R (ih X1 hlen1 hX1) with h | ⟨st, X2', h, hb⟩
        · left; rw [parseStringBody.eq_def]; simpa [h1, h2, h3] using h
        · right; exact ⟨st, X2', by rw [parseStringBody.eq_def]; simpa [h1, h2, h3] using h, hb⟩
  exact main X.length X le_rfl hX

theorem braceFree_tail {c : Char} {s : PyStr} (h : braceFree (c :: s) = true) :
    braceFree s = true := by
  rw [braceFree_cons] at h
  simp at h
  exact h.2

theorem dropWhile_append_of_head {p : Char → Bool} (a : PyStr) (c : Char) (b : PyStr)
    (hc : p c = false) :
    (a ++ (c :: b)).dropWhile p = a.dropWhile p ++ (c :: b) := by
  induction a with
  | nil => simp [List.dropWhile_cons, hc]
  | cons x xs ih =>
    by_cases hx : p x
    · simp [List.dropWhile_cons, hx, ih]
    · simp [List.dropWhile_cons, hx]

theorem braceFree_dropWhile (p : Char → Bool) (s : PyStr) (h : braceFree s = true) :
    braceFree (s.dropWhile p) = true := by
  rw [braceFree, List.all_eq_true] at h ⊢
  exact fun c hc => h c ((List.dropWhile_sublist _).subset hc)

theorem skipWs_append_remnant (a R : PyStr) :
    skipWs (a ++ fenceRemnant R) = skipWs a ++ fenceRemnant R :=
  dropWhile_append_of_head a '`' _ (by decide)

/-- A number token never reaches past the remnant backtick. -/
theorem parseNumber_remnant (X R : PyStr) (hX : braceFree X = true) :
    parseNumber (X ++ fenceRemnant R) = Except.error () ∨
    ∃ lex X2, parseNumber (X ++ fenceRemnant R) = Except.ok (lex, X2 ++ fenceRemnant R) ∧
      braceFree X2 = true := by
  have hdrop : (X ++ fenceRemnant R).dropWhile numChar
      = X.dropWhile numChar ++ fenceRemnant R :=
    dropWhile_append_of_head _ _ _ (by decide)
  simp only [parseNumber, hdrop]
  by_cases h : (X ++ fenceRemnant R).takeWhile numChar = []
  · left; simp [h]
  · right
    exact ⟨_, X.dropWhile numChar, by rw [if_neg h], braceFree_dropWhile _ _ hX⟩

theorem trueBody_remnant (X R : PyStr) (hX : braceFree X = true) :
    trueBody (X ++ fenceRemnant R) = Except.error () ∨
    ∃ v X2, trueBody (X ++ fenceRemnant R) = Except.ok (v, X2 ++ fenceRemnant R) ∧
      braceFree X2 = true := by
  rcases X with _ | ⟨c1, _ | ⟨c2, _ | ⟨c3, X3⟩⟩⟩ <;>
    [skip; skip; skip;
     exact (by
      unfold trueBody
      split
      · rename_i r heq
        simp only [List.cons_append, List.cons.injEq] at heq
        obtain ⟨h1, h2, h3, h4⟩ := heq
        right
        exact ⟨Json.bool true, X3, by rw [h4], braceFree_tail (braceFree_tail (braceFree_tail hX))⟩
      · left; rfl)] <;>
  · left
    unfold trueBody
    split
    · rename_i r heq
      simp [fenceRemnant] at heq
    · rfl

theorem falseBody_remnant (X R : PyStr) (hX : braceFree X = true) :
    falseBody (X ++ fenceRemnant R) = Except.error () ∨
    ∃ v X2, falseBody (X ++ fenceRemnant R) = Except.ok (v, X2 ++ fenceRemnant R) ∧
      braceFree X2 = true := by
  rcases X with _ | ⟨c1, _ | ⟨c2, _ | ⟨c3, _ | ⟨c4, X4⟩⟩⟩⟩ <;>
    [skip; skip; skip; skip;
     exact (by
      unfold falseBody
      split
      · rename_i r heq
        simp only [List.cons_append, List.cons.injEq] at heq
        obtain ⟨h1, h2, h3, h4, h5⟩ := heq
        right
        exact ⟨Json.bool false, X4, by rw [h5],
          braceFree_tail (braceFree_tail (braceFree_tail (braceFree_tail hX)))⟩
      · left; rfl)] <;>
  · left
    unfold falseBody
    split
    · rename_i r heq
      simp [fenceRemnant] at heq
    · rfl

theorem nullBody_remnant (X R : PyStr) (hX : braceFree X = true) :
    nullBody (X ++ fenceRemnant R) = Except.error () ∨
    ∃ v X2, nullBody (X ++ fenceRemnant R) = Except.ok (v, X2 ++ fenceRemnant R) ∧
      braceFree X2 = true := by
  rcases X with _ | ⟨c1, _ | ⟨c2, _ | ⟨c3, X3⟩⟩⟩ <;>
    [skip; skip; skip;
     exact (by
      unfold nullBody
      split
      · rename_i r heq
        simp only [List.cons_append, List.cons.injEq] at heq
        obtain ⟨h1, h2, h3, h4⟩ := heq
        right
        exact ⟨Json.null, X3, by rw [h4], braceFree_tail (braceFree_tail (braceFree_tail hX))⟩
      · left; rfl)] <;>
  · left
    unfold nullBody
    split
    · rename_i r heq
      simp [fenceRemnant] at heq
    · rfl

/-- An array opened in the commentary keeps the parse on the left of
the remnant. -/
theorem arrBody_remnant (recE : PyStr → Except Unit (List Json × PyStr)) (X R : PyStr)
    (hX : braceFree X = true)
    (hrec : ∀ Y : PyStr, braceFree Y = true →
      recE (Y ++ fenceRemnant R) = Except.error () ∨
      ∃ vs Y2, recE (Y ++ fenceRemnant R) = Except.ok (vs, Y2 ++ fenceRemnant R) ∧
        braceFree Y2 = true) :
    arrBody recE (X ++ fenceRemnant R) = Except.error () ∨
    ∃ v X2, arrBody recE (X ++ fenceRemnant R) = Except.ok (v, X2 ++ fenceRemnant R) ∧
      braceFree X2 = true := by
  unfold arrBody
  rw [skipWs_append_remnant]
  cases hsk : skipWs X with
  | nil =>
    rw [List.nil_append]
    split
    · rename_i r heq
      simp [fenceRemnant] at heq
    · rcases hrec [] rfl with h | ⟨vs, Y2, h, hb⟩
      · left; rw [List.nil_append] at h; rw [h]; rfl
      · right
        rw [List.nil_append] at h
        exact ⟨Json.arr vs, Y2, by rw [h]; rfl, hb⟩
  | cons d X2 =>
    have hbd : braceFree (d :: X2) = true := hsk ▸ braceFree_dropWhile _ _ hX
    split
    · rename_i r heq
      simp only [List.cons_append, List.cons.injEq] at heq
      obtain ⟨h1, h2⟩ := heq
      right
      exact ⟨Json.arr [], X2, by rw [h2], braceFree_tail hbd⟩
    · rcases hrec (d :: X2) hbd with h | ⟨vs, Y2, h, hb⟩
      · left
        rw [h]
        rfl
      · right
        exact ⟨Json.arr vs, Y2, by rw [h]; rfl, hb⟩

/-- No JSON value or array-element list that starts inside brace-free
commentary can cross the fence remnant: the parse either fails or stops
strictly before the backtick. -/
theorem parseVE_remnant : ∀ fuel : Nat,
    (∀ X R : PyStr, braceFree X = true →
      parseValue fuel (X ++ fenceRemnant R) = Except.error () ∨
      ∃ v X2, parseValue fuel (X ++ fenceRemnant R) = Except.ok (v, X2 ++ fenceRemnant R) ∧
        braceFree X2 = true) ∧
    (∀ X R : PyStr, braceFree X = true →
      parseElems fuel (X ++ fenceRemnant R) = Except.error () ∨
      ∃ vs X2, parseElems fuel (X ++ fenceRemnant R) = Except.ok (vs, X2 ++ fenceRemnant R) ∧
        braceFree X2 = true)
  | 0 => ⟨fun _ _ _ => Or.inl rfl, fun _ _ _ => Or.inl rfl⟩
  | fuel + 1 => by
    obtain ⟨ihV, ihE⟩ := parseVE_remnant fuel
    constructor
    · intro X R hX
      rcases X with _ | ⟨c, X1⟩
      · left
        show parseValue (fuel + 1) ('`' :: ('j' :: 's' :: 'o' :: 'n' :: '\n'::R)) = _
        unfold parseValue
        simp
      have hX1 : braceFree X1 = true := braceFree_tail hX
      have hnotOpen : ¬ c = '\x7b' := by
        rw [braceFree_cons] at hX
        simp at hX
        exact hX.1.1
      rw [List.cons_append]
      unfold parseValue
      by_cases h1 : c = '"'
      · subst h1
        rw [if_pos rfl]
        rcases psb_remnant X1 R hX1 with h | ⟨st, X2, h, hb⟩
        · left; rw [h]; rfl
        · right; exact ⟨Json.str st, X2, by rw [h]; rfl, hb⟩
      rw [if_neg h1, if_neg hnotOpen]
      by_cases h3 : c = '['
      · subst h3
        rw [if_pos rfl]
        exact arrBody_remnant _ X1 R hX1 (fun Y hY => ihE Y R hY)
      rw [if_neg h3]
      by_cases h4 : c = 't'
      · subst h4
        rw [if_pos rfl]
        exact trueBody_remnant X1 R hX1
      rw [if_neg h4]
      by_cases h5 : c = 'f'
      · subst h5
        rw [if_pos rfl]
        exact falseBody_remnant X1 R hX1
      rw [if_neg h5]
      by_cases h6 : c = 'n'
      · subst h6
        rw [if_pos rfl]
        exact nullBody_remnant X1 R hX1
      rw [if_neg h6]
      by_cases h7 : c = '-' ∨ c.isDigit
      · rw [if_pos h7]
        rcases parseNumber_remnant (c :: X1) R hX with h | ⟨lex, X2, h, hb⟩
        · left
          rw [List.cons_append] at h
          rw [h]
          rfl
        · right
          rw [List.cons_append] at h
          exact ⟨Json.num lex, X2, by rw [h]; rfl, hb⟩
      · rw [if_neg h7]
        left
        rfl
    · intro X R hX
      show parseElems (fuel + 1) (X ++ fenceRemnant R) = _ ∨ _
      unfold parseElems
      rcases ihV X R hX with h | ⟨v, X2, h, hb⟩
      · left; rw [h]
      · rw [h]
        simp only []
        rw [skipWs_append_remnant]
        cases hsk : skipWs X2 with
        | nil =>
          rw [List.nil_append]
          left
          split
          · rename_i r heq
            simp [fenceRemnant] at heq
          · rename_i r heq
            simp [fenceRemnant] at heq
          · rfl
        | cons d X3 =>
          have hbd : braceFree (d :: X3) = true := hsk ▸ braceFree_dropWhile _ _ hb
          split
          · rename_i r heq
            simp only [List.cons_append, List.cons.injEq] at heq
            obtain ⟨h1, h2⟩ := heq
            subst h2
            rw [show (X3 : PyStr) ++ fenceRemnant R
                = (X3 ++ ('`' :: ('j' :: 's' :: 'o' :: 'n' :: '\n'::R))) from rfl] at *
            rw [show skipWs (X3 ++ ('`' :: ('j' :: 's' :: 'o' :: 'n' :: '\n'::R)))
                = skipWs X3 ++ fenceRemnant R from skipWs_append_remnant X3 R]
            rcases ihE (skipWs X3) R (braceFree_dropWhile _ _ (braceFree_tail hbd))
                with h2 | ⟨vs, Y2, h2, hb2⟩
            · left; rw [h2]; rfl
            · right; exact ⟨v :: vs, Y2, by rw [h2]; rfl, hb2⟩
          · rename_i r heq
            simp only [List.cons_append, List.cons.injEq] at heq
            obtain ⟨h1, h2⟩ := heq
            right
            exact ⟨[v], X3, by rw [h2], braceFree_tail hbd⟩
          · left
            rfl

/-- Strict json.loads always fails when brace-free commentary precedes
the fence remnant. -/
theorem loads_remnant (A R : PyStr) (hA : braceFree A = true) :
    loads (A ++ fenceRemnant R) = Except.error () := by
  unfold loads
  rw [skipWs_append_remnant]
  rcases (parseVE_remnant ((A ++ fenceRemnant R).length + 1)).1 (skipWs A) R
      (braceFree_dropWhile _ _ hA) with h | ⟨v, X2, h, _⟩
  · rw [h]
  · rw [h]
    simp only []
    rw [skipWs_append_remnant]
    simp [fenceRemnant]

/-- Stripping around content that starts and ends with a backtick. -/
theorem pyStrip_wrap (pre mid post : PyStr) :
    pyStrip (pre ++ ('`' :: (mid ++ ('`' :: post)))) =
      trimLeft pre ++ ('`' :: (mid ++ ('`' :: trimRight post))) := by
  unfold pyStrip
  rw [trimLeft_append, trimLeft_cons_of_not_ws '`' _ (by decide)]
  have hsh : ∀ P : PyStr, P ++ ('`' :: (mid ++ ('`' :: post)))
      = ((P ++ ('`' :: mid)) ++ ['`']) ++ post := by
    intro P; simp
  by_cases hpre : trimLeft pre = []
  · rw [if_pos hpre, hpre]
    rw [show ('`' :: (mid ++ ('`' :: post))) = (([] ++ ('`' :: mid)) ++ ['`']) ++ post from by simp]
    rw [trimRight_append]
    rw [trimRight_append_singleton_of_not_ws _ _ (by decide)]
    by_cases hq : trimRight post = [] <;> simp [hq]
  · rw [if_neg hpre, hsh, trimRight_append,
      trimRight_append_singleton_of_not_ws _ _ (by decide)]
    by_cases hq : trimRight post = [] <;> simp [hq]

/-! ## The two recovery paths inside safe_extract_json -/

theorem firstIdx_wrap (A B : PyStr) (a : ArticleSummary) (hA : '\x7b' ∉ A) :
    firstIdx '\x7b' (A ++ (dumpsSummary a ++ B)) = some A.length := by
  rw [show A ++ (dumpsSummary a ++ B) = A ++ ('\x7b' :: (membersText a ++ ('\x7d' :: B))) from by
    simp [dumpsSummary]]
  exact firstIdx_append_self _ _ _ hA

theorem lastIdx_wrap (A B : PyStr) (a : ArticleSummary) (hB : '\x7d' ∉ B) :
    lastIdx '\x7d' (A ++ (dumpsSummary a ++ B)) =
      some (A.length + (membersText a).length + 1) := by
  rw [show A ++ (dumpsSummary a ++ B) = (A ++ ('\x7b' :: membersText a)) ++ ('\x7d' :: B) from by
    simp [dumpsSummary]]
  rw [lastIdx_append_self _ _ _ hB]
  simp [List.length_append]
  omega

theorem slice_wrap (A B : PyStr) (a : ArticleSummary) :
    (((A ++ (dumpsSummary a ++ B)).drop A.length).take
      (A.length + (membersText a).length + 1 + 1 - A.length)) = dumpsSummary a := by
  rw [List.drop_left]
  have harith : A.length + (membersText a).length + 1 + 1 - A.length = (dumpsSummary a).length := by
    simp [dumpsSummary]
    omega
  rw [harith, List.take_left]

/-! ## Computing the fence stripping on the wrapped reply -/

theorem fenceMarker_eq : fenceMarker = '`' :: '`' :: '`' :: [] := rfl

theorem dropOpenFence_concrete (X : PyStr) :
    dropOpenFence ('`' :: '`' :: '`' :: 'j' :: 's' :: 'o' :: 'n' :: '\n' :: X) = X.dropWhile pyWs := by
  unfold dropOpenFence
  simp only [List.drop_succ_cons, List.drop_zero, List.take_succ_cons, List.take_zero]
  rw [if_pos (by decide)]
  rw [List.dropWhile_cons, if_pos (by decide)]

theorem dumps_append_cons (a : ArticleSummary) (V : PyStr) :
    dumpsSummary a ++ V = '\x7b' :: (membersText a ++ ('\x7d' :: V)) := by
  simp [dumpsSummary]

theorem dropWhile_pyWs_dumps (a : ArticleSummary) (V : PyStr) :
    (dumpsSummary a ++ V).dropWhile pyWs = dumpsSummary a ++ V := by
  rw [dumps_append_cons, List.dropWhile_cons, if_neg (by decide)]

theorem trimRight_dumps (a : ArticleSummary) : trimRight (dumpsSummary a) = dumpsSummary a := by
  rw [show dumpsSummary a = ('\x7b' :: membersText a) ++ ['\x7d'] from by simp [dumpsSummary]]
  exact trimRight_append_singleton_of_not_ws _ _ (by decide)

theorem safe_extract_of_loads_error {raw : PyStr}
    (h : loads (fenceStripped (pyStrip raw)) = Except.error ()) :
    safe_extract_json raw = extractFallback (fenceStripped (pyStrip raw)) := by
  unfold safe_extract_json
  rw [h]

theorem safe_extract_of_loads_ok {raw : PyStr} {j : Json}
    (h : loads (fenceStripped (pyStrip raw)) = Except.ok j) :
    safe_extract_json raw = Except.ok j := by
  unfold safe_extract_json
  rw [h]

theorem extractFallback_wrap (A B : PyStr) (a : ArticleSummary)
    (hA : '\x7b' ∉ A) (hB : '\x7d' ∉ B) :
    extractFallback (A ++ (dumpsSummary a ++ B)) = Except.ok (summaryJson a) := by
  unfold extractFallback
  rw [firstIdx_wrap _ _ _ hA, lastIdx_wrap _ _ _ hB]
  simp only []
  rw [if_pos (by omega)]
  rw [slice_wrap, loads_dumps]

/-! ## Fence stripping with arbitrary brace-free commentary -/

theorem braceFree_sub {s s2 : PyStr} (hsub : ∀ c, c ∈ s → c ∈ s2) (h : braceFree s2 = true) :
    braceFree s = true := by
  rw [braceFree, List.all_eq_true] at h ⊢
  exact fun c hc => h c (hsub c hc)

theorem trimRight_last_not_ws (s : PyStr) (h : ¬ trimRight s = []) :
    ∃ l c, trimRight s = l ++ [c] ∧ pyWs c = false := by
  unfold trimRight at h ⊢
  cases hq : trimLeft s.reverse with
  | nil => rw [hq] at h; simp at h
  | cons c cs =>
    exact ⟨cs.reverse, c, by simp, dropWhile_head_false hq⟩

theorem dumpsSummary_ne_nil (a : ArticleSummary) : ¬ dumpsSummary a = [] := by
  simp [dumpsSummary]

theorem trimRight_append_dumps (Y : PyStr) (a : ArticleSummary) :
    trimRight (Y ++ dumpsSummary a) = Y ++ dumpsSummary a := by
  rw [trimRight_append, trimRight_dumps, if_neg (dumpsSummary_ne_nil a)]

/-- Closing-fence handling on commentary + payload + closing fence +
trailing commentary: whether or not the text happens to end in a fence,
the result keeps the commentary and payload and is followed by some
brace-free tail that is empty or still carries a non-whitespace
character. -/
theorem dropCloseFence_wrap (Y : PyStr) (a : ArticleSummary) (Q : PyStr)
    (hQ : braceFree Q = true) :
    ∃ V, dropCloseFence (Y ++ (dumpsSummary a ++ ('\n' :: '`' :: '`' :: '`' :: Q)))
        = Y ++ (dumpsSummary a ++ V) ∧ braceFree V = true ∧
      (V = [] ∨ ∃ c, c ∈ V ∧ jsonWs c = false) := by
  have hbC : braceFree ('\n' :: '`' :: '`' :: '`' :: Q) = true := by
    simp [braceFree] at hQ ⊢
    exact hQ
  unfold dropCloseFence
  by_cases hsuf :
      fenceMarker.isSuffixOf (Y ++ (dumpsSummary a ++ ('\n' :: '`' :: '`' :: '`'::Q))) = true
  · rw [if_pos hsuf]
    have hlen : (Y ++ (dumpsSummary a ++ ('\n' :: '`' :: '`' :: '`'::Q))).length - 3
        = Y.length + ((dumpsSummary a).length + (Q.length + 1)) := by
      simp [List.length_append]
      omega
    rw [hlen, List.take_append, List.take_append]
    have hbW : braceFree (('\n' :: '`' :: '`' :: '`'::Q : PyStr).take (Q.length + 1)) = true :=
      braceFree_sub (fun c hc => List.take_subset _ _ hc) hbC
    have hre : Y ++ (dumpsSummary a ++ ('\n' :: '`' :: '`' :: '`'::Q : PyStr).take (Q.length + 1))
        = (Y ++ dumpsSummary a) ++ ('\n' :: '`' :: '`' :: '`'::Q : PyStr).take (Q.length + 1) := by
      simp
    rw [hre, trimRight_append]
    by_cases hTW : trimRight (('\n' :: '`' :: '`' :: '`'::Q : PyStr).take (Q.length + 1)) = []
    · rw [if_pos hTW, trimRight_append_dumps]
      exact ⟨[], by simp, rfl, Or.inl rfl⟩
    · rw [if_neg hTW]
      obtain ⟨l, c, hlc, hcw⟩ := trimRight_last_not_ws _ hTW
      exact ⟨trimRight (('\n' :: '`' :: '`' :: '`'::Q : PyStr).take (Q.length + 1)), by simp,
        braceFree_sub (fun d hd => mem_trimRight_sub hd) hbW,
        Or.inr ⟨c, by rw [hlc]; simp, jsonWs_false_of_pyWs_false c hcw⟩⟩
  · rw [if_neg hsuf]
    exact ⟨'\n' :: '`' :: '`' :: '`'::Q, rfl, hbC, Or.inr ⟨'`', by simp, by decide⟩⟩

/-- When strict parsing faces brace-free commentary followed by the
fence remnant, it always fails, and the substring fallback recovers the
serialized object. -/
theorem safe_extract_of_remnant (raw : PyStr) (a : ArticleSummary) (A V : PyStr)
    (hA : braceFree A = true) (hV : '\x7d' ∉ V)
    (hs : fenceStripped (pyStrip raw) = A ++ fenceRemnant (dumpsSummary a ++ V)) :
    safe_extract_json raw = Except.ok (summaryJson a) := by
  have hload : loads (fenceStripped (pyStrip raw)) = Except.error () := by
    rw [hs]
    exact loads_remnant A _ hA
  rw [safe_extract_of_loads_error hload, hs]
  rw [show A ++ fenceRemnant (dumpsSummary a ++ V)
      = (A ++ ('`' :: 'j' :: 's' :: 'o' :: 'n' :: '\n'::[])) ++ (dumpsSummary a ++ V) from by
    simp [fenceRemnant]]
  apply extractFallback_wrap
  · intro hmem
    rcases List.mem_append.mp hmem with h | h
    · exact braceFree_not_mem_open hA h
    · simp at h
  · exact hV

/-- When the stripped reply is exactly the payload plus a brace-free
tail, either the tail is whitespace and strict parsing succeeds, or the
tail retains a visible character and the fallback recovers the object. -/
theorem safe_extract_of_plain (raw : PyStr) (a : ArticleSummary) (V : PyStr)
    (hV : '\x7d' ∉ V) (hw : V = [] ∨ ∃ c, c ∈ V ∧ jsonWs c = false)
    (hs : fenceStripped (pyStrip raw) = dumpsSummary a ++ V) :
    safe_extract_json raw = Except.ok (summaryJson a) := by
  rcases hw with rfl | ⟨c, hc, hcw⟩
  · refine safe_extract_of_loads_ok ?_
    rw [hs, List.append_nil]
    exact loads_dumps a
  · have hload : loads (fenceStripped (pyStrip raw)) = Except.error () := by
      rw [hs]
      exact loads_dumps_append_garbage a V c hc hcw
    rw [safe_extract_of_loads_error hload, hs]
    rw [show dumpsSummary a ++ V = [] ++ (dumpsSummary a ++ V) from by simp]
    exact extractFallback_wrap _ _ _ (by simp) hV

theorem safe_extract_of_open_stripped (raw : PyStr) (a : ArticleSummary) (A0 Q : PyStr)
    (hA : braceFree A0 = true) (hQ : braceFree Q = true)
    (hfs : fenceStripped (pyStrip raw)
      = dropCloseFence (A0 ++ fenceRemnant (dumpsSummary a ++ ('\n' :: '`' :: '`' :: '`'::Q)))) :
    safe_extract_json raw = Except.ok (summaryJson a) := by
  obtain ⟨V, hV, hbV, _⟩ := dropCloseFence_wrap (A0 ++ ['`','j','s','o','n','\n']) a Q hQ
  refine safe_extract_of_remnant raw a A0 V hA (braceFree_not_mem_close hbV) ?_
  rw [hfs]
  rw [show A0 ++ fenceRemnant (dumpsSummary a ++ ('\n' :: '`' :: '`' :: '`'::Q))
      = (A0 ++ ['`','j','s','o','n','\n'])
          ++ (dumpsSummary a ++ ('\n' :: '`' :: '`' :: '`'::Q)) from by simp [fenceRemnant]]
  rw [hV]
  simp [fenceRemnant]

theorem safe_extract_of_open_stripped_nil (raw : PyStr) (a : ArticleSummary) (Q : PyStr)
    (hQ : braceFree Q = true)
    (hfs : fenceStripped (pyStrip raw)
      = dropCloseFence (dumpsSummary a ++ ('\n' :: '`' :: '`' :: '`'::Q))) :
    safe_extract_json raw = Except.ok (summaryJson a) := by
  obtain ⟨V, hV, hbV, hw⟩ := dropCloseFence_wrap [] a Q hQ
  simp only [List.nil_append] at hV
  refine safe_extract_of_plain raw a V (braceFree_not_mem_close hbV) hw ?_
  rw [hfs, hV]

theorem dropOpenFence_drop3 (c1 c2 c3 : Char) (M : PyStr) :
    dropOpenFence (c1 :: c2 :: c3 :: M)
      = (if (M.take 4).map Char.toLower = "json".toList then M.drop 4 else M).dropWhile pyWs :=
  rfl

theorem dropOpenFence_tick1 (X : PyStr) :
    dropOpenFence ('`' :: '`' :: '`' :: '`' :: 'j' :: 's' :: 'o' :: 'n' :: '\n'::X) = fenceRemnant X := by
  rw [dropOpenFence_drop3]
  have ht : ¬ ((('`' :: 'j' :: 's' :: 'o' :: 'n' :: '\n'::X : PyStr).take 4).map Char.toLower
      = "json".toList) := by
    rw [show (('`' :: 'j' :: 's' :: 'o' :: 'n' :: '\n'::X : PyStr).take 4) = ['`','j','s','o'] from rfl]
    decide
  rw [if_neg ht]
  rw [show ('`' :: 'j' :: 's' :: 'o' :: 'n' :: '\n'::X : PyStr) = '`'::('j' :: 's' :: 'o' :: 'n' :: '\n'::X) from rfl]
  rw [List.dropWhile_cons, if_neg (by decide)]
  rfl

theorem dropOpenFence_tick2 (X : PyStr) :
    dropOpenFence ('`' :: '`' :: '`' :: '`' :: '`' :: 'j' :: 's' :: 'o' :: 'n' :: '\n'::X)
      = '`' :: fenceRemnant X := by
  rw [dropOpenFence_drop3]
  have ht : ¬ ((('`' :: '`' :: 'j' :: 's' :: 'o' :: 'n' :: '\n'::X : PyStr).take 4).map Char.toLower
      = "json".toList) := by
    rw [show (('`' :: '`' :: 'j' :: 's' :: 'o' :: 'n' :: '\n'::X : PyStr).take 4) = ['`','`','j','s'] from rfl]
    decide
  rw [if_neg ht]
  rw [show ('`' :: '`' :: 'j' :: 's' :: 'o' :: 'n' :: '\n'::X : PyStr)
      = '`'::('`' :: 'j' :: 's' :: 'o' :: 'n' :: '\n'::X) from rfl]
  rw [List.dropWhile_cons, if_neg (by decide)]
  rfl

theorem fence_prefix_chars (c1 : Char) (P1 S : PyStr)
    (h : fenceMarker.isPrefixOf (c1 :: (P1 ++ S)) = true) :
    c1 = '`' ∧ (∀ c2 P2, P1 = c2 :: P2 → c2 = '`' ∧
      (∀ c3 P3, P2 = c3 :: P3 → c3 = '`')) := by
  rw [fenceMarker_eq] at h
  unfold List.isPrefixOf at h
  simp only [Bool.and_eq_true, beq_iff_eq] at h
  obtain ⟨hc1, h⟩ := h
  refine ⟨hc1.symm, ?_⟩
  intro c2 P2 hP1
  subst hP1
  rw [List.cons_append] at h
  unfold List.isPrefixOf at h
  simp only [Bool.and_eq_true, beq_iff_eq] at h
  obtain ⟨hc2, h⟩ := h
  refine ⟨hc2.symm, ?_⟩
  intro c3 P3 hP2
  subst hP2
  rw [List.cons_append] at h
  unfold List.isPrefixOf at h
  simp only [Bool.and_eq_true, beq_iff_eq] at h
  exact h.1.symm

/-- Round trip through safe_extract_json for a fenced reply surrounded
by arbitrary brace-free commentary. -/
theorem safe_extract_json_wrapped (a : ArticleSummary) (pre post : PyStr)
    (hbpre : braceFree pre = true) (hbpost : braceFree post = true) :
    safe_extract_json (fencedWrap pre (dumpsSummary a) post) = Except.ok (summaryJson a) := by
  have hwrap : fencedWrap pre (dumpsSummary a) post
      = pre ++ ('`' :: (('`' :: '`' :: 'j' :: 's' :: 'o' :: 'n' :: '\n' ::
          (dumpsSummary a ++ ('\n' :: '`' :: '`' :: []))) ++ ('`' :: post))) := by
    show pre ++ (openFenceJson ++ (dumpsSummary a ++ (closeFence ++ post))) = _
    rw [show openFenceJson = '`' :: '`' :: '`' :: 'j' :: 's' :: 'o' :: 'n' :: '\n' :: [] from rfl,
        show closeFence = '\n' :: '`' :: '`' :: '`' :: [] from rfl]
    simp
  have hs1 : pyStrip (fencedWrap pre (dumpsSummary a) post)
      = trimLeft pre ++ ('`' :: '`' :: '`' :: 'j' :: 's' :: 'o' :: 'n' :: '\n' ::
          (dumpsSummary a ++ ('\n' :: '`' :: '`' :: '`' :: trimRight post))) := by
    rw [hwrap, pyStrip_wrap]
    simp
  have hbP : braceFree (trimLeft pre) = true :=
    braceFree_sub (fun c hc => mem_trimLeft_sub hc) hbpre
  have hbQ : braceFree (trimRight post) = true :=
    braceFree_sub (fun c hc => mem_trimRight_sub hc) hbpost
  by_cases hfence :
      fenceMarker.isPrefixOf (pyStrip (fencedWrap pre (dumpsSummary a) post)) = true
  · have hfence0 := hfence
    cases hP : trimLeft pre with
    | nil =>
      apply safe_extract_of_open_stripped_nil _ a (trimRight post) hbQ
      unfold fenceStripped
      rw [if_pos hfence0, hs1, hP, List.nil_append, dropOpenFence_concrete, dropWhile_pyWs_dumps]
    | cons c1 P1 =>
      rw [hs1, hP, List.cons_append] at hfence
      obtain ⟨hc1, hrest⟩ := fence_prefix_chars c1 P1 _ hfence
      subst hc1
      cases hP1 : P1 with
      | nil =>
        have hshape : pyStrip (fencedWrap pre (dumpsSummary a) post)
            = '`' :: '`' :: '`' :: '`' :: 'j' :: 's' :: 'o' :: 'n' :: '\n'::
                (dumpsSummary a ++ ('\n' :: '`' :: '`' :: '`'::trimRight post)) := by
          rw [hs1, hP, hP1]
          simp
        apply safe_extract_of_open_stripped _ a [] (trimRight post) rfl hbQ
        unfold fenceStripped
        rw [if_pos hfence0, hshape, dropOpenFence_tick1]
        simp [fenceRemnant]
      | cons c2 P2 =>
        obtain ⟨hc2, hrest2⟩ := hrest c2 P2 hP1
        subst hc2
        cases hP2 : P2 with
        | nil =>
          have hshape : pyStrip (fencedWrap pre (dumpsSummary a) post)
              = '`' :: '`' :: '`' :: '`' :: '`' :: 'j' :: 's' :: 'o' :: 'n' :: '\n'::
                  (dumpsSummary a ++ ('\n' :: '`' :: '`' :: '`'::trimRight post)) := by
            rw [hs1, hP, hP1, hP2]
            simp
          apply safe_extract_of_open_stripped _ a ['`'] (trimRight post) rfl hbQ
          unfold fenceStripped
          rw [if_pos hfence0, hshape, dropOpenFence_tick2]
          simp [fenceRemnant]
        | cons c3 P3 =>
          have hc3 : c3 = '`' := hrest2 c3 P3 hP2
          subst hc3
          have hbP3 : braceFree P3 = true := by
            rw [hP, hP1, hP2] at hbP
            exact braceFree_tail (braceFree_tail (braceFree_tail hbP))
          have hshape : pyStrip (fencedWrap pre (dumpsSummary a) post)
              = '`' :: '`' :: '`'::(P3 ++ ('`' :: '`' :: '`' :: 'j' :: 's' :: 'o' :: 'n' :: '\n'::
                  (dumpsSummary a ++ ('\n' :: '`' :: '`' :: '`'::trimRight post)))) := by
            rw [hs1, hP, hP1, hP2]
            simp
          by_cases hJ : (((P3 ++ ('`' :: '`' :: '`' :: 'j' :: 's' :: 'o' :: 'n' :: '\n'::
              (dumpsSummary a ++ ('\n' :: '`' :: '`' :: '`'::trimRight post)))).take 4).map
                Char.toLower) = "json".toList
          · rcases hP3 : P3 with _ | ⟨d1, _ | ⟨d2, _ | ⟨d3, _ | ⟨d4, P4⟩⟩⟩⟩
            · rw [hP3] at hJ
              rw [show (([] ++ ('`' :: '`' :: '`' :: 'j' :: 's' :: 'o' :: 'n' :: '\n'::
                    (dumpsSummary a ++ ('\n' :: '`' :: '`' :: '`'::trimRight post)))) : PyStr).take 4
                  = ['`','`','`','j'] from rfl] at hJ
              rw [show "json".toList = ['j','s','o','n'] from rfl] at hJ
              simp only [List.map_cons, List.map_nil, List.cons.injEq, and_true] at hJ
              exact absurd hJ.1 (by decide)
            · rw [hP3] at hJ
              rw [show (((d1::[]) ++ ('`' :: '`' :: '`' :: 'j' :: 's' :: 'o' :: 'n' :: '\n'::
                    (dumpsSummary a ++ ('\n' :: '`' :: '`' :: '`'::trimRight post)))) : PyStr).take 4
                  = [d1,'`','`','`'] from rfl] at hJ
              rw [show "json".toList = ['j','s','o','n'] from rfl] at hJ
              simp only [List.map_cons, List.map_nil, List.cons.injEq, and_true] at hJ
              exact absurd hJ.2.1 (by decide)
            · rw [hP3] at hJ
              rw [show (((d1::d2::[]) ++ ('`' :: '`' :: '`' :: 'j' :: 's' :: 'o' :: 'n' :: '\n'::
                    (dumpsSummary a ++ ('\n' :: '`' :: '`' :: '`'::trimRight post)))) : PyStr).take 4
                  = [d1,d2,'`','`'] from rfl] at hJ
              rw [show "json".toList = ['j','s','o','n'] from rfl] at hJ
              simp only [List.map_cons, List.map_nil, List.cons.injEq, and_true] at hJ
              exact absurd hJ.2.2.1 (by decide)
            · rw [hP3] at hJ
              rw [show (((d1::d2::d3::[]) ++ ('`' :: '`' :: '`' :: 'j' :: 's' :: 'o' :: 'n' :: '\n'::
                    (dumpsSummary a ++ ('\n' :: '`' :: '`' :: '`'::trimRight post)))) : PyStr).take 4
                  = [d1,d2,d3,'`'] from rfl] at hJ
              rw [show "json".toList = ['j','s','o','n'] from rfl] at hJ
              simp only [List.map_cons, List.map_nil, List.cons.injEq, and_true] at hJ
              exact absurd hJ.2.2.2 (by decide)
            · have hbP4 : braceFree P4 = true := by
                rw [hP3] at hbP3
                exact braceFree_tail (braceFree_tail (braceFree_tail (braceFree_tail hbP3)))
              apply safe_extract_of_open_stripped _ a
                (P4.dropWhile pyWs ++ ['`', '`']) (trimRight post)
                (by rw [braceFree_append, braceFree_dropWhile _ _ hbP4]; rfl) hbQ
              unfold fenceStripped
              rw [if_pos hfence0, hshape, dropOpenFence_drop3, if_pos hJ, hP3]
              rw [show ((d1::d2::d3::d4::P4 : PyStr) ++ ('`' :: '`' :: '`' :: 'j' :: 's' :: 'o' :: 'n' :: '\n'::
                    (dumpsSummary a ++ ('\n' :: '`' :: '`' :: '`'::trimRight post)))).drop 4
                  = P4 ++ ('`' :: '`' :: '`' :: 'j' :: 's' :: 'o' :: 'n' :: '\n'::
                    (dumpsSummary a ++ ('\n' :: '`' :: '`' :: '`'::trimRight post))) from rfl]
              rw [dropWhile_append_of_head _ _ _ (by decide)]
              simp [fenceRemnant]
          · apply safe_extract_of_open_stripped _ a
              (P3.dropWhile pyWs ++ ['`', '`']) (trimRight post)
              (by rw [braceFree_append, braceFree_dropWhile _ _ hbP3]; rfl) hbQ
            unfold fenceStripped
            rw [if_pos hfence0, hshape, dropOpenFence_drop3, if_neg hJ]
            rw [dropWhile_append_of_head _ _ _ (by decide)]
            simp [fenceRemnant]
  · have hs2 : fenceStripped (pyStrip (fencedWrap pre (dumpsSummary a) post))
        = (trimLeft pre ++ ['`', '`']) ++
            fenceRemnant (dumpsSummary a ++ ('\n' :: '`' :: '`' :: '`' :: trimRight post)) := by
      unfold fenceStripped
      rw [if_neg hfence, hs1]
      simp [fenceRemnant]
    refine safe_extract_of_remnant _ a _ _ ?_ ?_ hs2
    · rw [braceFree_append, hbP]
      rfl
    · intro h
      rcases List.mem_cons.mp h with h | h
      · exact absurd h (by decide)
      rcases List.mem_cons.mp h with h | h
      · exact absurd h (by decide)
      rcases List.mem_cons.mp h with h | h
      · exact absurd h (by decide)
      rcases List.mem_cons.mp h with h | h
      · exact absurd h (by decide)
      exact braceFree_not_mem_close hbQ h

/-! ## Claim theorems -/

theorem gagalMsg_ne_nil (e : PyStr) : gagalMsg e ≠ [] := by
  unfold gagalMsg
  intro h
  have h0 := (List.append_eq_nil.mp h).1
  have : "Gagal memproses artikel: ".toList ≠ ([] : PyStr) := by decide
  exact this h0

theorem styleErrorMsg_ne_nil (style : PyStr) : styleErrorMsg style ≠ [] := by
  unfold styleErrorMsg
  intro h
  have h0 := (List.append_eq_nil.mp h).1
  have h1 := (List.append_eq_nil.mp h0).1
  have h2 := (List.append_eq_nil.mp h1).1
  have : "Gaya \x27".toList ≠ ([] : PyStr) := by decide
  exact this h2

theorem summarize_failure_msg_ne_nil (parseHtml : PyStr → HNode)
    (crawl : PyStr → Except PyStr CrawlResult) (httpGet : PyStr → Nat → Except PyStr HttpResponse)
    (llm : PyStr → Except PyStr PyStr) (url style msg : PyStr)
    (h : (summarize parseHtml crawl httpGet llm url style).1 = Outcome.failure msg) :
    msg ≠ [] := by
  unfold summarize at h
  by_cases hs : (STYLE_CONTEXTS.lookup style).isSome
  · rw [if_pos hs] at h
    cases hcr : crawl_url parseHtml crawl httpGet (normalizeUrl url) with
    | error e =>
      rw [hcr] at h
      simp at h
      rw [← h]
      exact gagalMsg_ne_nil e
    | ok t =>
      rw [hcr] at h
      simp only [] at h
      by_cases hlen : (t.isEmpty || decide ((pyStrip t).length < 100)) = true
      · rw [if_pos hlen] at h
        simp at h
        rw [← h]
        decide
      · rw [if_neg hlen] at h
        cases hg : summarize_with_gemini llm t style with
        | error ge =>
          rw [hg] at h
          simp at h
          rw [← h]
          exact gagalMsg_ne_nil _
        | ok d =>
          rw [hg] at h
          simp at h
  · rw [if_neg hs] at h
    simp at h
    rw [← h]
    exact styleErrorMsg_ne_nil style

/-- C1.  The orchestrator is total: whatever any stage does (style
validation, URL normalization, fetch, prompt construction, LLM call,
response parsing -- each external effect being an arbitrary oracle),
summarize returns either a success payload or a failure outcome carrying
a non-empty, human-readable error string.  No exception escapes: every
stage error is mapped to an Outcome.failure. -/
theorem claim_C1_orchestrator_total (parseHtml : PyStr → HNode)
    (crawl : PyStr → Except PyStr CrawlResult) (httpGet : PyStr → Nat → Except PyStr HttpResponse)
    (llm : PyStr → Except PyStr PyStr) (url style : PyStr) :
    (∃ d u st si, (summarize parseHtml crawl httpGet llm url style).1 = Outcome.success d u st si) ∨
    (∃ msg, (summarize parseHtml crawl httpGet llm url style).1 = Outcome.failure msg ∧ msg ≠ []) := by
  cases h : (summarize parseHtml crawl httpGet llm url style).1 with
  | success d u st si => exact Or.inl ⟨d, u, st, si, rfl⟩
  | failure msg =>
    exact Or.inr ⟨msg, rfl, summarize_failure_msg_ne_nil parseHtml crawl httpGet llm url style msg h⟩

/-- C2.  With a valid style and a fetched text t, the orchestrator
rejects with the content-too-short failure, without calling the LLM,
exactly when the trimmed text is under 100 characters; at 100 or more
the pipeline proceeds to the LLM stage. -/
theorem claim_C2_content_length_boundary (parseHtml : PyStr → HNode)
    (crawl : PyStr → Except PyStr CrawlResult) (httpGet : PyStr → Nat → Except PyStr HttpResponse)
    (llm : PyStr → Except PyStr PyStr) (url style t : PyStr)
    (hs : (STYLE_CONTEXTS.lookup style).isSome = true)
    (hcr : crawl_url parseHtml crawl httpGet (normalizeUrl url) = Except.ok t) :
    ((pyStrip t).length < 100 →
      summarize parseHtml crawl httpGet llm url style
        = (Outcome.failure tooShortMsg, ⟨true, false⟩)) ∧
    (100 ≤ (pyStrip t).length →
      (summarize parseHtml crawl httpGet llm url style).2.llmCalled = true) := by
  constructor
  · intro h100
    unfold summarize
    rw [if_pos hs, hcr]
    simp only []
    rw [if_pos (by simp [h100])]
  · intro h100
    have hne : t.isEmpty = false := by
      cases t with
      | nil => simp [pyStrip, trimLeft, trimRight] at h100
      | cons c cs => rfl
    unfold summarize
    rw [if_pos hs, hcr]
    simp only []
    rw [if_neg (by simp [hne]; omega)]
    cases hg : summarize_with_gemini llm t style <;> simp [hg]

/-- C2 witness: trimmed lengths 99 and 100 give different outcomes; at
99 the LLM is never called. -/
theorem claim_C2_witness :
    summarize (fun s => HNode.text s)
      (fun _ => Except.ok ⟨some (List.replicate 99 'a'), none⟩)
      (fun _ _ => Except.error "neterr".toList)
      (fun _ => Except.error "llmerr".toList)
      "example.com".toList "casual".toList
      = (Outcome.failure tooShortMsg, ⟨true, false⟩) ∧
    (summarize (fun s => HNode.text s)
      (fun _ => Except.ok ⟨some (List.replicate 100 'a'), none⟩)
      (fun _ _ => Except.error "neterr".toList)
      (fun _ => Except.error "llmerr".toList)
      "example.com".toList "casual".toList).2.llmCalled = true := by
  constructor
  · exact (claim_C2_content_length_boundary (fun s => HNode.text s)
      (fun _ => Except.ok ⟨some (List.replicate 99 'a'), none⟩)
      (fun _ _ => Except.error "neterr".toList) (fun _ => Except.error "llmerr".toList)
      "example.com".toList "casual".toList (List.replicate 99 'a') (by decide) rfl).1 (by decide)
  · exact (claim_C2_content_length_boundary (fun s => HNode.text s)
      (fun _ => Except.ok ⟨some (List.replicate 100 'a'), none⟩)
      (fun _ _ => Except.error "neterr".toList) (fun _ => Except.error "llmerr".toList)
      "example.com".toList "casual".toList (List.replicate 100 'a') (by decide) rfl).2 (by decide)

/-- C5.  The prompt builders embed at most 10,000 characters of article
text: the truncation is a silent prefix-take (no error), the identity at
or under 10,000 characters, and both the Gemini and the Ollama prompt
embed exactly the truncated text between fixed template parts. -/
theorem claim_C5_prompt_truncation (text style : PyStr) :
    (truncate10000 text).length ≤ 10000 ∧
    (∃ r, text = truncate10000 text ++ r) ∧
    (text.length ≤ 10000 → truncate10000 text = text) ∧
    (10000 < text.length → truncate10000 text = text.take 10000) ∧
    buildGeminiPrompt (styleLookup style) (truncate10000 text)
      = promptPart1 ++ (styleLookup style).prompt_addition ++ promptPart2
        ++ (styleLookup style).name ++ promptPart3 ++ truncate10000 text ++ promptPart4 ∧
    ollamaPromptFor text = ollamaPromptHead ++ truncate10000 text ++ ollamaPromptTail := by
  refine ⟨?_, ?_, ?_, ?_, rfl, rfl⟩
  · unfold truncate10000
    by_cases h : text.length > 10000
    · rw [if_pos h]; rw [List.length_take]; omega
    · rw [if_neg h]; omega
  · unfold truncate10000
    by_cases h : text.length > 10000
    · rw [if_pos h]; exact ⟨text.drop 10000, (List.take_append_drop _ _).symm⟩
    · rw [if_neg h]; exact ⟨[], by simp⟩
  · intro h; unfold truncate10000; rw [if_neg (by omega)]
  · intro h; unfold truncate10000; rw [if_pos (by omega)]

/-- C5 witness at an over-long text. -/
theorem claim_C5_witness :
    (truncate10000 (List.replicate 10050 'b')).length ≤ 10000 ∧
    truncate10000 (List.replicate 10050 'b') = (List.replicate 10050 'b').take 10000 :=
  ⟨(claim_C5_prompt_truncation (List.replicate 10050 'b') "casual".toList).1,
   (claim_C5_prompt_truncation (List.replicate 10050 'b') "casual".toList).2.2.2.1
     (by rw [List.length_replicate]; omega)⟩

/-- C7.  An unknown style id is rejected at the request boundary with a
message naming the valid styles, before any fetch or LLM call (both
trace flags false); while the in-pipeline lookup of the same id falls
back to the casual default instead of failing. -/
theorem claim_C7_unknown_style (parseHtml : PyStr → HNode)
    (crawl : PyStr → Except PyStr CrawlResult) (httpGet : PyStr → Nat → Except PyStr HttpResponse)
    (llm : PyStr → Except PyStr PyStr) (url style : PyStr)
    (h : STYLE_CONTEXTS.lookup style = none) :
    summarize parseHtml crawl httpGet llm url style
      = (Outcome.failure (styleErrorMsg style), ⟨false, false⟩) ∧
    styleLookup style = casualStyle ∧
    styleErrorMsg style = "Gaya \x27".toList ++ style ++
      ("\x27 tidak valid. Pilih dari: " ++
        "formal, casual, professional, journalistic, educational, simple").toList := by
  refine ⟨?_, ?_, ?_⟩
  · unfold summarize
    rw [h]
    rfl
  · unfold styleLookup
    rw [h]
    rfl
  · unfold styleErrorMsg
    rw [show joinSep ", ".toList (STYLE_CONTEXTS.map (·.1))
        = "formal, casual, professional, journalistic, educational, simple".toList from by decide]
    rw [List.append_assoc]
    rw [show ("\x27 tidak valid. Pilih dari: ".toList
        ++ "formal, casual, professional, journalistic, educational, simple".toList : PyStr)
        = ("\x27 tidak valid. Pilih dari: "
            ++ "formal, casual, professional, journalistic, educational, simple").toList from by decide]

/-- C7 witness at the unknown id fancy. -/
theorem claim_C7_witness :
    summarize (fun s => HNode.text s) (fun _ => Except.error "nocrawl".toList)
      (fun _ _ => Except.error "nonet".toList) (fun _ => Except.error "nollm".toList)
      "example.com".toList "fancy".toList
      = (Outcome.failure (styleErrorMsg "fancy".toList), ⟨false, false⟩) ∧
    styleLookup "fancy".toList = casualStyle :=
  ⟨(claim_C7_unknown_style (fun s => HNode.text s)
      (fun _ => Except.error "nocrawl".toList) (fun _ _ => Except.error "nonet".toList)
      (fun _ => Except.error "nollm".toList) "example.com".toList "fancy".toList rfl).1,
   (claim_C7_unknown_style (fun s => HNode.text s)
      (fun _ => Except.error "nocrawl".toList) (fun _ _ => Except.error "nonet".toList)
      (fun _ => Except.error "nollm".toList) "example.com".toList "fancy".toList rfl).2.1⟩

/-- C8 amended.  In the primary fetcher (src/main.py): a crawl error is
swallowed and control reaches the HTTP fallback, which uses timeout 30;
a network error of the fallback propagates; a non-2xx status raises out
of the fallback; a 2xx response is cleaned and returned.  In the
experimental fetcher (src/rnd/gemma_crawl.py) only the network-error
part holds: its fallback has no raise_for_status. -/
theorem claim_C8_fetch_fallback (parseHtml : PyStr → HNode)
    (crawl : PyStr → Except PyStr CrawlResult) (httpGet : PyStr → Nat → Except PyStr HttpResponse)
    (url : PyStr) :
    (∀ ec, crawl url = Except.error ec →
      crawl_url parseHtml crawl httpGet url = httpFallback parseHtml httpGet url) ∧
    (∀ eg, httpGet url 30 = Except.error eg →
      httpFallback parseHtml httpGet url = Except.error eg) ∧
    (∀ resp, httpGet url 30 = Except.ok resp → ¬(200 ≤ resp.status ∧ resp.status < 300) →
      httpFallback parseHtml httpGet url = Except.error statusErrMsg) ∧
    (∀ resp, httpGet url 30 = Except.ok resp → (200 ≤ resp.status ∧ resp.status < 300) →
      httpFallback parseHtml httpGet url = Except.ok (clean_html parseHtml resp.text)) ∧
    (∀ ec eg, crawl url = Except.error ec → httpGet url 30 = Except.error eg →
      crawl_url_gemma crawl httpGet url = Except.error eg) := by
  refine ⟨?_, ?_, ?_, ?_, ?_⟩
  · intro ec h
    unfold crawl_url
    rw [h]
  · intro eg h
    unfold httpFallback
    rw [h]
  · intro resp h hst
    unfold httpFallback
    rw [h]
    simp only []
    rw [if_neg hst]
  · intro resp h hst
    unfold httpFallback
    rw [h]
    simp only []
    rw [if_pos hst]
  · intro ec eg hc hg
    unfold crawl_url_gemma
    rw [hc, hg]

/-- C8 counterexample: in the gemma fetcher, when the crawl raises and
the fallback GET returns a 404, the body is returned and no error
propagates -- the claim as stated fails for that fetcher. -/
theorem claim_C8_counterexample :
    crawl_url_gemma (fun _ => Except.error "crawler crashed".toList)
      (fun _ _ => Except.ok ⟨404, "Not Found".toList⟩) "https://x.test".toList
      = Except.ok (some "Not Found".toList) := rfl

/-- C8 witness: the primary fallback raises on a 500, and the gemma
fetcher propagates a fallback network error. -/
theorem claim_C8_witness :
    httpFallback (fun s => HNode.text s) (fun _ _ => Except.ok ⟨500, "boom".toList⟩)
      "https://e.test".toList = Except.error statusErrMsg ∧
    crawl_url_gemma (fun _ => Except.error "x".toList) (fun _ _ => Except.error "down".toList)
      "https://e.test".toList = Except.error "down".toList :=
  ⟨(claim_C8_fetch_fallback (fun s => HNode.text s) (fun _ => Except.error "x".toList)
      (fun _ _ => Except.ok ⟨500, "boom".toList⟩) "https://e.test".toList).2.2.1
      ⟨500, "boom".toList⟩ rfl (by decide),
   (claim_C8_fetch_fallback (fun s => HNode.text s) (fun _ => Except.error "x".toList)
      (fun _ _ => Except.error "down".toList) "https://e.test".toList).2.2.2.2
      "x".toList "down".toList rfl rfl⟩

/-- C10.  When the rich crawl succeeds but yields neither truthy
markdown nor truthy cleaned html, the fetcher proceeds to the HTTP
fallback rather than returning empty content. -/
theorem claim_C10_empty_crawl_falls_back (parseHtml : PyStr → HNode)
    (crawl : PyStr → Except PyStr CrawlResult) (httpGet : PyStr → Nat → Except PyStr HttpResponse)
    (url : PyStr) (r : CrawlResult) (h : crawl url = Except.ok r)
    (hm : truthyStr r.markdown = false) (hc : truthyStr r.cleaned_html = false) :
    crawl_url parseHtml crawl httpGet url = httpFallback parseHtml httpGet url := by
  unfold crawl_url
  rw [h]
  simp [hm, hc]

/-- C10 witness: empty markdown and absent cleaned html fall through to
the fallback (whose network error then surfaces). -/
theorem claim_C10_witness :
    crawl_url (fun s => HNode.text s) (fun _ => Except.ok ⟨some [], none⟩)
      (fun _ _ => Except.error "neterr".toList) "https://e.test".toList
      = httpFallback (fun s => HNode.text s) (fun _ _ => Except.error "neterr".toList)
          "https://e.test".toList ∧
    httpFallback (fun s => HNode.text s) (fun _ _ => Except.error "neterr".toList)
      "https://e.test".toList = Except.error "neterr".toList :=
  ⟨claim_C10_empty_crawl_falls_back _ _ _ _ _ rfl rfl rfl, rfl⟩

/-- C3 counterexample: with a single closing brace as trailing
commentary, the round trip through safe_extract_json fails (the
substring between the first and last brace is no longer valid JSON), so
the claim does not hold for arbitrary surrounding commentary. -/
theorem claim_C3_counterexample :
    safe_extract_json
      (fencedWrap [] (dumpsSummary ⟨"X".toList, "2024-01-01".toList, "Y".toList, "Z".toList⟩)
        ['\x7d'])
      = Except.error () ∧
    (Except.error () : Except Unit Json)
      ≠ Except.ok (summaryJson ⟨"X".toList, "2024-01-01".toList, "Y".toList, "Z".toList⟩) :=
  ⟨rfl, by simp⟩

/-- C3 amended.  For every well-formed ArticleSummary serialized to
standard JSON, wrapping the text in a fenced code block tagged json and
adding arbitrary surrounding commentary that contains no literal
braces makes safe_extract_json recover exactly the serialized object. -/
theorem claim_C3_fenced_roundtrip (a : ArticleSummary) (pre post : PyStr)
    (hbpre : braceFree pre = true) (hbpost : braceFree post = true) :
    safe_extract_json (fencedWrap pre (dumpsSummary a) post) = Except.ok (summaryJson a) :=
  safe_extract_json_wrapped a pre post hbpre hbpost

/-- C3 witness: a concrete summary wrapped with realistic commentary on
both sides round-trips. -/
theorem claim_C3_witness :
    safe_extract_json
      (fencedWrap "Sure, here is the JSON you asked for.\n".toList
        (dumpsSummary ⟨"Judul".toList, "2024-01-01".toList, "Penulis".toList,
          "Lima kalimat ringkasan.".toList⟩)
        "\nHope this helps.".toList)
      = Except.ok (summaryJson ⟨"Judul".toList, "2024-01-01".toList, "Penulis".toList,
          "Lima kalimat ringkasan.".toList⟩) :=
  claim_C3_fenced_roundtrip
    ⟨"Judul".toList, "2024-01-01".toList, "Penulis".toList, "Lima kalimat ringkasan.".toList⟩
    "Sure, here is the JSON you asked for.\n".toList "\nHope this helps.".toList
    (by decide) (by decide)

/-- C4 counterexample: a reply whose ringkasan field is the empty string
parses successfully (pydantic accepts an empty str), so the synopsis of
a successfully parsed summary can be empty. -/
theorem claim_C4_counterexample :
    parseSummary
      "\x7b\"judul\": \"a\", \"tanggal\": \"b\", \"penulis\": \"c\", \"ringkasan\": \"\"\x7d".toList
      = Except.ok ⟨"a".toList, "b".toList, "c".toList, []⟩ := rfl

/-- C4 amended.  Every ArticleSummary produced by a successful parse has
all four fields present in the recovered JSON object as string values
(never null or missing) and the model fields are exactly those strings;
the synopsis, however, may be empty. -/
theorem claim_C4_parsed_fields (raw : PyStr) (s : ArticleSummary)
    (h : parseSummary raw = Except.ok s) :
    ∃ fs, safe_extract_json raw = Except.ok (Json.obj fs) ∧
      jLookup fs "judul".toList = some (Json.str s.judul) ∧
      jLookup fs "tanggal".toList = some (Json.str s.tanggal) ∧
      jLookup fs "penulis".toList = some (Json.str s.penulis) ∧
      jLookup fs "ringkasan".toList = some (Json.str s.ringkasan) := by
  unfold parseSummary at h
  cases hx : safe_extract_json raw with
  | error e => rw [hx] at h; cases h
  | ok j =>
    rw [hx] at h
    cases j with
    | obj fs =>
      refine ⟨fs, rfl, ?_⟩
      unfold instantiateSummary at h
      simp only [] at h
      split at h
      · rename_i a b c d h1 h2 h3 h4
        cases h
        exact ⟨h1, h2, h3, h4⟩
      · cases h
    | null => cases h
    | bool b => cases h
    | num n => cases h
    | str st => cases h
    | arr xs => cases h

/-- C4 witness at a concrete well-shaped reply. -/
theorem claim_C4_witness :
    ∃ fs, safe_extract_json
        "\x7b\"judul\": \"a\", \"tanggal\": \"b\", \"penulis\": \"c\", \"ringkasan\": \"ok\"\x7d".toList
        = Except.ok (Json.obj fs) ∧
      jLookup fs "judul".toList = some (Json.str "a".toList) ∧
      jLookup fs "tanggal".toList = some (Json.str "b".toList) ∧
      jLookup fs "penulis".toList = some (Json.str "c".toList) ∧
      jLookup fs "ringkasan".toList = some (Json.str "ok".toList) :=
  claim_C4_parsed_fields
    "\x7b\"judul\": \"a\", \"tanggal\": \"b\", \"penulis\": \"c\", \"ringkasan\": \"ok\"\x7d".toList
    ⟨"a".toList, "b".toList, "c".toList, "ok".toList⟩ rfl

/-- C9.  The response-parsing stage raises distinct exception kinds: a
JSON-syntax failure surfaces as the json.JSONDecodeError kind, while a
recovered object that does not carry all four required fields as
strings (missing or wrong-typed) surfaces as the pydantic
ValidationError kind; the two kinds are distinct, so a caller can tell
them apart. -/
theorem claim_C9_error_kinds (raw : PyStr) :
    (safe_extract_json raw = Except.error () →
      parseSummary raw = Except.error GeminiError.jsonDecodeError) ∧
    (∀ j, safe_extract_json raw = Except.ok j → parseSummary raw = instantiateSummary j) ∧
    (∀ fs, (¬ ∃ a b c d,
        jLookup fs "judul".toList = some (Json.str a) ∧
        jLookup fs "tanggal".toList = some (Json.str b) ∧
        jLookup fs "penulis".toList = some (Json.str c) ∧
        jLookup fs "ringkasan".toList = some (Json.str d)) →
      instantiateSummary (Json.obj fs) = Except.error GeminiError.validationError) ∧
    GeminiError.validationError ≠ GeminiError.jsonDecodeError := by
  refine ⟨?_, ?_, ?_, by decide⟩
  · intro h
    unfold parseSummary
    rw [h]
  · intro j h
    unfold parseSummary
    rw [h]
  · intro fs hno
    unfold instantiateSummary
    simp only []
    split
    · rename_i a b c d h1 h2 h3 h4
      exact absurd ⟨a, b, c, d, h1, h2, h3, h4⟩ hno
    · rfl

/-- C9 witness: a syntax failure and a wrong-typed field produce the two
distinct kinds. -/
theorem claim_C9_witness :
    parseSummary "no json here".toList = Except.error GeminiError.jsonDecodeError ∧
    instantiateSummary (Json.obj [("judul".toList, Json.num "5".toList)])
      = Except.error GeminiError.validationError :=
  ⟨(claim_C9_error_kinds "no json here".toList).1 rfl,
   (claim_C9_error_kinds [] ).2.2.1 [("judul".toList, Json.num "5".toList)]
     (by rintro ⟨a, b, c, d, h1, h2, h3, h4⟩; simp [jLookup] at h1)⟩

/-! ## The normalizer claim -/

mutual
def noBannedN : HNode → Bool
  | .text _ => true
  | .elem t cs => !bannedTag t && noBannedF cs
def noBannedF : HForest → Bool
  | .nil => true
  | .cons n cs => noBannedN n && noBannedF cs
end

theorem noBanned_removeBannedF : ∀ (cs : HForest), noBannedF (removeBannedF cs) = true
  | .nil => rfl
  | .cons (.text s) cs => by
    simp [removeBannedF, noBannedF, noBannedN, noBanned_removeBannedF cs]
  | .cons (.elem t k) cs => by
    by_cases h : bannedTag t = true
    · simp [removeBannedF, h, noBanned_removeBannedF cs]
    · simp [removeBannedF, h, noBannedF, noBannedN, noBanned_removeBannedF k,
        noBanned_removeBannedF cs]

mutual
theorem mem_fragments_findN (t : String) (n : HNode) (r : HNode) (h : findTagN t n = some r)
    (s : PyStr) (hs : s ∈ textFragmentsN r) : s ∈ textFragmentsN n := by
  cases n with
  | text s0 => simp [findTagN] at h
  | elem tag cs =>
    unfold findTagN at h
    by_cases htag : tag = t
    · rw [if_pos htag] at h
      cases h
      exact hs
    · rw [if_neg htag] at h
      show s ∈ textFragmentsF cs
      exact mem_fragments_findF t cs r h s hs
theorem mem_fragments_findF (t : String) (cs : HForest) (r : HNode) (h : findTagF t cs = some r)
    (s : PyStr) (hs : s ∈ textFragmentsN r) : s ∈ textFragmentsF cs := by
  cases cs with
  | nil => simp [findTagF] at h
  | cons n rest =>
    unfold findTagF at h
    show s ∈ textFragmentsN n ++ textFragmentsF rest
    cases hfn : findTagN t n with
    | some r2 =>
      rw [hfn] at h
      injection h with he
      subst he
      exact List.mem_append_left _ (mem_fragments_findN t n r2 hfn s hs)
    | none =>
      rw [hfn] at h
      exact List.mem_append_right _ (mem_fragments_findF t rest r h s hs)
end

theorem mem_fragments_soupFind (t : String) (d : HNode) (r : HNode) (h : soupFind t d = some r)
    (s : PyStr) (hs : s ∈ textFragmentsN r) : s ∈ textFragmentsN d := by
  cases d with
  | text s0 => simp [soupFind] at h
  | elem tag cs =>
    show s ∈ textFragmentsF cs
    exact mem_fragments_findF t cs r (by simpa [soupFind] using h) s hs

theorem mem_fragments_pyOr (d : HNode) (o : Option HNode) (b : HNode)
    (ho : ∀ r, o = some r → ∀ s, s ∈ textFragmentsN r → s ∈ textFragmentsN d)
    (hb : ∀ s, s ∈ textFragmentsN b → s ∈ textFragmentsN d) :
    ∀ s, s ∈ textFragmentsN (pyOr o b) → s ∈ textFragmentsN d := by
  intro s hs
  unfold pyOr at hs
  cases o with
  | none => exact hb s hs
  | some n =>
    simp only [] at hs
    by_cases ht : tagTruthy n = true
    · rw [if_pos ht] at hs
      exact ho n rfl s hs
    · rw [if_neg ht] at hs
      exact hb s hs

mutual
theorem findTagN_isElem (t : String) (n : HNode) (r : HNode) (h : findTagN t n = some r) :
    ∃ tag cs, r = HNode.elem tag cs := by
  cases n with
  | text s0 => simp [findTagN] at h
  | elem tag cs =>
    unfold findTagN at h
    by_cases htag : tag = t
    · rw [if_pos htag] at h
      injection h with he
      exact ⟨tag, cs, he.symm⟩
    · rw [if_neg htag] at h
      exact findTagF_isElem t cs r h
theorem findTagF_isElem (t : String) (cs : HForest) (r : HNode) (h : findTagF t cs = some r) :
    ∃ tag k, r = HNode.elem tag k := by
  cases cs with
  | nil => simp [findTagF] at h
  | cons n rest =>
    unfold findTagF at h
    cases hfn : findTagN t n with
    | some r2 =>
      rw [hfn] at h
      injection h with he
      subst he
      exact findTagN_isElem t n r2 hfn
    | none =>
      rw [hfn] at h
      exact findTagF_isElem t rest r h
end

/-- find only ever returns Tag nodes (elements), never bare strings. -/
theorem soupFind_isElem (t : String) (d : HNode) (r : HNode) (h : soupFind t d = some r) :
    ∃ tag cs, r = HNode.elem tag cs := by
  cases d with
  | text s0 => simp [soupFind] at h
  | elem tag cs => exact findTagF_isElem t cs r (by simpa [soupFind] using h)

/-- A node returned by find is always truthy, because a bs4 Tag converts
to True unconditionally. -/
theorem tagTruthy_of_soupFind (t : String) (d : HNode) (r : HNode)
    (h : soupFind t d = some r) : tagTruthy r = true := by
  obtain ⟨tag, cs, rfl⟩ := soupFind_isElem t d r h
  rfl

/-- C6.  The normalizer removes script, style and noscript subtrees
entirely (the cleaned children contain no such element, and every
output fragment comes from the cleaned tree), and selects the
container by the unconditional priority order: a found article wins
over main, body and the whole document; with no article, a found main
wins; then body; else the whole document.  Since a bs4 Tag is always
truthy, a found element is never skipped, even when empty. -/
theorem claim_C6_normalizer (doc : HNode) :
    (∀ tag cs, removeBanned doc = HNode.elem tag cs → noBannedF cs = true) ∧
    (∀ s, s ∈ textFragmentsN (selectContainer (removeBanned doc)) →
      s ∈ textFragmentsN (removeBanned doc)) ∧
    (∀ n, soupFind "article" (removeBanned doc) = some n →
      cleanSoup doc = getTextStrip n) ∧
    (∀ n, soupFind "article" (removeBanned doc) = none →
      soupFind "main" (removeBanned doc) = some n →
      cleanSoup doc = getTextStrip n) ∧
    (∀ n, soupFind "article" (removeBanned doc) = none →
      soupFind "main" (removeBanned doc) = none →
      soupFind "body" (removeBanned doc) = some n →
      cleanSoup doc = getTextStrip n) ∧
    (soupFind "article" (removeBanned doc) = none →
      soupFind "main" (removeBanned doc) = none →
      soupFind "body" (removeBanned doc) = none →
      cleanSoup doc = getTextStrip (removeBanned doc)) := by
  refine ⟨?_, ?_, ?_, ?_, ?_, ?_⟩
  · intro tag cs h
    cases doc with
    | text s0 => simp [removeBanned] at h
    | elem t0 cs0 =>
      unfold removeBanned at h
      cases h
      exact noBanned_removeBannedF cs0
  · unfold selectContainer
    apply mem_fragments_pyOr
    · exact fun r hr => mem_fragments_soupFind "article" _ r hr
    · apply mem_fragments_pyOr
      · exact fun r hr => mem_fragments_soupFind "main" _ r hr
      · apply mem_fragments_pyOr
        · exact fun r hr => mem_fragments_soupFind "body" _ r hr
        · exact fun s hs => hs
  · intro n h
    unfold cleanSoup selectContainer
    rw [h]
    unfold pyOr
    simp only []
    rw [if_pos (tagTruthy_of_soupFind _ _ _ h)]
  · intro n h1 h2
    unfold cleanSoup selectContainer
    rw [h1, h2]
    unfold pyOr
    simp only []
    rw [if_pos (tagTruthy_of_soupFind _ _ _ h2)]
  · intro n h1 h2 h3
    unfold cleanSoup selectContainer
    rw [h1, h2, h3]
    unfold pyOr
    simp only []
    rw [if_pos (tagTruthy_of_soupFind _ _ _ h3)]
  · intro h1 h2 h3
    unfold cleanSoup selectContainer
    rw [h1, h2, h3]
    rfl

/-- C6 witness: even an article element with no children takes priority
over a main element with content, because a found Tag is always truthy. -/
theorem claim_C6_witness :
    cleanSoup (HNode.elem "[document]" (HForest.cons (HNode.elem "article" HForest.nil)
        (HForest.cons (HNode.elem "main" (HForest.cons (HNode.text "from main".toList)
          HForest.nil)) HForest.nil)))
      = getTextStrip (HNode.elem "article" HForest.nil) :=
  (claim_C6_normalizer (HNode.elem "[document]"
      (HForest.cons (HNode.elem "article" HForest.nil)
        (HForest.cons (HNode.elem "main" (HForest.cons (HNode.text "from main".toList)
          HForest.nil)) HForest.nil)))).2.2.1
    (HNode.elem "article" HForest.nil) rfl

end ArticleSummarizer
